import Mathlib

/-! Appointy_InstaAPI: the in-memory users/posts HTTP handler (`mainfinal.go`)

A shallow embedding of `mainfinal.go`: the route patterns, the `datastore`, the
`userHandler` methods `ServeHTTP`, `List`, `ListPost`, `Get`, `GetPost`, `Create`,
`CreatePost`, and the helpers `internalServerError` and `notFound`.

Reading of the source.

* `datastore` declares two maps under the one field name `m`: a `map[string]user`
  (line 35) and a `map[string]post` (line 36). Lean needs two names: the first is
  `m`, the second `m_post`. Each use of `h.store.m` is the map whose value type is
  the type of what is read from it or assigned to it: `List`, `Get` and `Create`
  work on the users map, `ListPost`, `GetPost` and `CreatePost` on the posts map.
* In the handlers requests are handled one after the other, so `Lock`/`Unlock`/
  `RLock`/`RUnlock` have no effect on the result and are left out. The section on
  concurrent Create requests models the mutex and the interleaving of goroutines.
* A Go map is ranged over in an unspecified order.  The map is an association list
  without duplicate keys (`AList`), and `range` walks it in the order of that list.
* `http.ResponseWriter` is the sequence of calls made on it, in order.
* `encoding/json` is a library, not part of the repository.  Decoding of a request
  body is a parameter (`Env.Decode_user`, `Env.Decode_post`). Each handler is first
  written over an arbitrary `json.Marshal` (the definitions ending in `_with`), and
  then taken at the `json.Marshal` of the library, written out for the string-only
  structs and slices of them.
* Go strings are byte strings; here they are `String`, so only valid UTF-8 is covered.
-/

namespace InstaAPI

/-! ## Data model -/

/-- The struct `user` (lines 20-25): four string fields, JSON names
`id`, `name`, `email`, `pass`. -/
structure user where
  ID : String
  Name : String
  Email : String
  Password : String
  deriving DecidableEq, Repr

/-- The struct `post` (lines 27-32): four string fields, JSON names
`id`, `caption`, `url`, `stamp`. -/
structure post where
  ID : String
  Caption : String
  ImageURL : String
  Timestamp : String
  deriving DecidableEq, Repr

/-- A Go slice that was made with `make` (never nil). -/
abbrev Slice (α : Type) : Type := List α

/-- A `map[string]user`: string keys, at most one value per key. -/
abbrev UserMap : Type := AList (fun _ : String => user)

/-- A `map[string]post`. -/
abbrev PostMap : Type := AList (fun _ : String => post)

/-- The struct `datastore` (lines 34-38), without its mutex: the field
`m map[string]user` of line 35 and the field `m map[string]post` of line 36, the
second under the name `m_post`. -/
structure datastore where
  m : UserMap
  m_post : PostMap

/-- The struct `userHandler` (lines 40-42). -/
structure userHandler where
  store : datastore

/-- The field `URL` of a request; only `Path` is read. -/
structure URL where
  Path : String
  deriving DecidableEq, Repr

/-- The parts of `*http.Request` the handlers read. -/
structure Request where
  Method : String
  URL : URL
  Body : String
  deriving DecidableEq, Repr

/-- The constant `http.MethodGet`. -/
def MethodGet : String := "GET"

/-- The constant `http.MethodPost`. -/
def MethodPost : String := "POST"

/-- The constant `http.StatusOK`. -/
def StatusOK : Nat := 200

/-- The constant `http.StatusNotFound`. -/
def StatusNotFound : Nat := 404

/-- The constant `http.StatusInternalServerError`. -/
def StatusInternalServerError : Nat := 500

/-! ## The response writer -/

/-- One call made on an `http.ResponseWriter`. -/
inductive Call where
  | HeaderSet (key value : String)
  | WriteHeader (code : Nat)
  | Write (bytes : String)
  deriving DecidableEq, Repr

/-- An `http.ResponseWriter`, as the calls made on it so far, oldest first. -/
abbrev ResponseWriter : Type := List Call

/-- The call `w.Header().Set(key, value)`. -/
def ResponseWriter.HeaderSet (w : ResponseWriter) (key value : String) : ResponseWriter :=
  w ++ [Call.HeaderSet key value]

/-- The call `w.WriteHeader(code)`. -/
def ResponseWriter.WriteHeader (w : ResponseWriter) (code : Nat) : ResponseWriter :=
  w ++ [Call.WriteHeader code]

/-- The call `w.Write(bytes)`. -/
def ResponseWriter.Write (w : ResponseWriter) (bytes : String) : ResponseWriter :=
  w ++ [Call.Write bytes]

/-- The status line the client receives: the code of the first `WriteHeader`, or
200 when a `Write` comes before any `WriteHeader` (net/http then sends 200 itself);
`none` while neither has happened. -/
def ResponseWriter.status : ResponseWriter → Option Nat
  | [] => none
  | Call.HeaderSet _ _ :: w => ResponseWriter.status w
  | Call.WriteHeader code :: _ => some code
  | Call.Write _ :: _ => some StatusOK

/-- The response body: the written chunks, in order. -/
def ResponseWriter.body : ResponseWriter → String
  | [] => ""
  | Call.Write bytes :: w => bytes ++ ResponseWriter.body w
  | _ :: w => ResponseWriter.body w

/-! ## Route patterns -/

/-- The two shapes of pattern the source compiles. `collection lit` is
`^lit[\/]*$` and `item lit` is `^lit(\d+)$`, with `lit` a literal string. -/
inductive Regexp where
  | collection (lit : String)
  | item (lit : String)
  deriving DecidableEq, Repr

/-- Removes the literal `lit` from the front of `s`; `none` when `s` does not
start with it. -/
def dropLit : List Char → List Char → Option (List Char)
  | [], s => some s
  | _ :: _, [] => none
  | c :: cs, d :: ds => if c = d then dropLit cs ds else none

/-- The class `\d`: the ASCII digits `0` to `9`. -/
def isDigit (c : Char) : Bool := decide (48 ≤ c.toNat) && decide (c.toNat ≤ 57)

/-- The method `(*Regexp).MatchString`: the pattern is anchored at both ends, so
the whole string has to be of the pattern's shape. -/
def Regexp.MatchString : Regexp → String → Bool
  | Regexp.collection lit, s =>
    match dropLit lit.data s.data with
    | some rest => rest.all (fun c => decide (c = '/'))
    | none => false
  | Regexp.item lit, s =>
    match dropLit lit.data s.data with
    | some rest => !rest.isEmpty && rest.all isDigit
    | none => false

/-- The method `(*Regexp).FindStringSubmatch`: the whole match followed by the
text of each capture group, or the empty (nil) slice when there is no match. -/
def Regexp.FindStringSubmatch : Regexp → String → Slice String
  | Regexp.collection lit, s =>
    if (Regexp.collection lit).MatchString s then [s] else []
  | Regexp.item lit, s =>
    match dropLit lit.data s.data with
    | some rest => if !rest.isEmpty && rest.all isDigit then [s, String.mk rest] else []
    | none => []

/-- Line 12: `^\/users[\/]*$`. -/
def listUserRe : Regexp := Regexp.collection "/users"

/-- Line 13: `^\/users\/(\d+)$`. -/
def getUserRe : Regexp := Regexp.item "/users/"

/-- Line 14: `^\/users[\/]*$`. -/
def createUserRe : Regexp := Regexp.collection "/users"

/-- Line 15: `^\/posts[\/]*$`. -/
def listPostRe : Regexp := Regexp.collection "/posts"

/-- Line 16: `^\/posts\/(\d+)$`. -/
def getPostRe : Regexp := Regexp.item "/posts/"

/-- Line 17: `^\/posts[\/]*$`. -/
def createPostRe : Regexp := Regexp.collection "/posts"

/-- Modelled from the spec: the identifier `createPostrRe` that line 62 matches the
path against is declared nowhere in the source. The spec's route table sends
`POST /<collection>` and `POST /<collection>/` to Create, which for posts is the
pattern `^\/posts[\/]*$` declared on line 17 as `createPostRe`. -/
def createPostrRe : Regexp := Regexp.collection "/posts"

/-! ## `json.Marshal` on the record types -/

/-- The sixteen hexadecimal digits, lower case. -/
def json.hex (n : Nat) : Char :=
  "0123456789abcdef".data.getD n '0'

/-- How `encoding/json` writes one character inside a string literal, with HTML
escaping on as `json.Marshal` has it: `"` and `\` get a backslash; backspace, form
feed, newline, carriage return and tab get their short escapes; other control
characters and `<`, `>`, `&` are written `\u00XX`; the line and paragraph
separators U+2028 and U+2029 get their six-character escapes; everything else is
copied. -/
def json.escapeChar (c : Char) : List Char :=
  if c = '"' then ['\\', '"']
  else if c = '\\' then ['\\', '\\']
  else if c.toNat = 8 then ['\\', 'b']
  else if c.toNat = 12 then ['\\', 'f']
  else if c = '\n' then ['\\', 'n']
  else if c = '\r' then ['\\', 'r']
  else if c = '\t' then ['\\', 't']
  else if c.toNat < 32 ∨ c = '<' ∨ c = '>' ∨ c = '&' then
    ['\\', 'u', '0', '0', json.hex (c.toNat / 16), json.hex (c.toNat % 16)]
  else if c.toNat = 8232 then ['\\', 'u', '2', '0', '2', '8']
  else if c.toNat = 8233 then ['\\', 'u', '2', '0', '2', '9']
  else [c]

/-- A Go string as a JSON string literal. -/
def json.quote (s : String) : String :=
  "\"" ++ String.mk (s.data.flatMap json.escapeChar) ++ "\""

/-- The bytes `encoding/json` produces for a `user`: the fields in declaration
order under their JSON names. -/
def json.encode_user (u : user) : String :=
  "\x7b\"id\":" ++ json.quote u.ID ++ ",\"name\":" ++ json.quote u.Name
    ++ ",\"email\":" ++ json.quote u.Email ++ ",\"pass\":" ++ json.quote u.Password ++ "\x7d"

/-- The bytes `encoding/json` produces for a `post`. -/
def json.encode_post (p : post) : String :=
  "\x7b\"id\":" ++ json.quote p.ID ++ ",\"caption\":" ++ json.quote p.Caption
    ++ ",\"url\":" ++ json.quote p.ImageURL ++ ",\"stamp\":" ++ json.quote p.Timestamp ++ "\x7d"

/-- The result of `json.Marshal(u)` for `u` of type `user`: a struct of strings
always encodes, so the error is nil. -/
def json.Marshal_user (u : user) : Except String String :=
  Except.ok (json.encode_user u)

/-- The result of `json.Marshal(u)` for `u` of type `post`. -/
def json.Marshal_post (p : post) : Except String String :=
  Except.ok (json.encode_post p)

/-- The encodings of the elements of a slice, in order; the first error wins. -/
def json.Marshal_elems {α : Type} (elem : α → Except String String) :
    Slice α → Except String (List String)
  | [] => Except.ok []
  | v :: vs =>
    match elem v with
    | Except.error e => Except.error e
    | Except.ok s =>
      match json.Marshal_elems elem vs with
      | Except.error e => Except.error e
      | Except.ok ss => Except.ok (s :: ss)

/-- The result of `json.Marshal` on a non-nil slice: the elements between `[` and
`]`, separated by commas; the empty slice gives `[]`. -/
def json.Marshal_slice {α : Type} (elem : α → Except String String) (vs : Slice α) :
    Except String String :=
  match json.Marshal_elems elem vs with
  | Except.error e => Except.error e
  | Except.ok ss => Except.ok ("[" ++ String.intercalate "," ss ++ "]")

/-- The function `json.Marshal(v interface{}) ([]byte, error)` as the handlers use
it: its result on a value of each of the four types they pass to it. -/
structure Marshal where
  ofUser : user → Except String String
  ofPost : post → Except String String
  ofUsers : Slice user → Except String String
  ofPosts : Slice post → Except String String

/-- The `json.Marshal` of `encoding/json` on these four types. -/
def json.Marshal : Marshal where
  ofUser := json.Marshal_user
  ofPost := json.Marshal_post
  ofUsers := json.Marshal_slice json.Marshal_user
  ofPosts := json.Marshal_slice json.Marshal_post

/-- What the handlers use and the source file does not define. -/
structure Env where
  /-- The call `json.NewDecoder(r.Body).Decode(&u)` for `var u user`, as a function
  of the body: the decoded struct, or the error. -/
  Decode_user : String → Except String user
  /-- The same call for `var u post`. -/
  Decode_post : String → Except String post
  /-- The identifier `users` that `ListPost` appends to on line 93; it is declared
  neither in `ListPost` nor at package level. Line 93 assigns `append(users, v)` to
  a `[]post`, so it is a slice of posts. -/
  users : Slice post

/-! ## The handlers -/

/-- Lines 190-193. -/
def internalServerError (w : ResponseWriter) (_r : Request) : ResponseWriter :=
  (w.WriteHeader StatusInternalServerError).Write "internal server error"

/-- Lines 195-198. -/
def notFound (w : ResponseWriter) (_r : Request) : ResponseWriter :=
  (w.WriteHeader StatusNotFound).Write "not found"

/-- The slice `users` that `List` builds on lines 74-77: every value of the users
map, in range order. -/
def userHandler.List.users (h : userHandler) : Slice user :=
  h.store.m.entries.foldl (fun users kv => users ++ [kv.2]) []

/-- Lines 72-86, over the `json.Marshal` given as `M`. -/
def userHandler.List_with (M : Marshal) (h : userHandler) (w : ResponseWriter) (r : Request) :
    userHandler × ResponseWriter :=
  let users := userHandler.List.users h
  match M.ofUsers users with
  | Except.error _ => (h, internalServerError w r)
  | Except.ok jsonBytes => (h, (w.WriteHeader StatusOK).Write jsonBytes)

/-- Lines 72-86. -/
def userHandler.List (h : userHandler) (w : ResponseWriter) (r : Request) :
    userHandler × ResponseWriter :=
  h.List_with json.Marshal w r

/-- The slice `posts` that `ListPost` builds on lines 91-94 from the posts map: it
starts empty, and each round of the loop assigns it `append(users, v)`. -/
def userHandler.ListPost.posts (E : Env) (h : userHandler) : Slice post :=
  h.store.m_post.entries.foldl (fun _posts kv => E.users ++ [kv.2]) []

/-- Lines 89-103, over the `json.Marshal` given as `M`. -/
def userHandler.ListPost_with (M : Marshal) (E : Env) (h : userHandler) (w : ResponseWriter)
    (r : Request) : userHandler × ResponseWriter :=
  let posts := userHandler.ListPost.posts E h
  match M.ofPosts posts with
  | Except.error _ => (h, internalServerError w r)
  | Except.ok jsonBytes => (h, (w.WriteHeader StatusOK).Write jsonBytes)

/-- Lines 89-103. -/
def userHandler.ListPost (E : Env) (h : userHandler) (w : ResponseWriter) (r : Request) :
    userHandler × ResponseWriter :=
  h.ListPost_with json.Marshal E w r

/-- Lines 105-126, over the `json.Marshal` given as `M`; `ms` is the source's
variable `matches`. -/
def userHandler.Get_with (M : Marshal) (h : userHandler) (w : ResponseWriter) (r : Request) :
    userHandler × ResponseWriter :=
  let ms := getUserRe.FindStringSubmatch r.URL.Path
  if ms.length < 2 then (h, notFound w r)
  else
    match h.store.m.lookup (ms.getD 1 "") with
    | none => (h, (w.WriteHeader StatusNotFound).Write "user not found")
    | some u =>
      match M.ofUser u with
      | Except.error _ => (h, internalServerError w r)
      | Except.ok jsonBytes => (h, (w.WriteHeader StatusOK).Write jsonBytes)

/-- Lines 105-126. -/
def userHandler.Get (h : userHandler) (w : ResponseWriter) (r : Request) :
    userHandler × ResponseWriter :=
  h.Get_with json.Marshal w r

/-- Lines 129-150, over the `json.Marshal` given as `M`. The pattern applied to the
path is `getUserRe`, as in `Get`; the map read is the posts map. -/
def userHandler.GetPost_with (M : Marshal) (h : userHandler) (w : ResponseWriter)
    (r : Request) : userHandler × ResponseWriter :=
  let ms := getUserRe.FindStringSubmatch r.URL.Path
  if ms.length < 2 then (h, notFound w r)
  else
    match h.store.m_post.lookup (ms.getD 1 "") with
    | none => (h, (w.WriteHeader StatusNotFound).Write "post not found")
    | some u =>
      match M.ofPost u with
      | Except.error _ => (h, internalServerError w r)
      | Except.ok jsonBytes => (h, (w.WriteHeader StatusOK).Write jsonBytes)

/-- Lines 129-150. -/
def userHandler.GetPost (h : userHandler) (w : ResponseWriter) (r : Request) :
    userHandler × ResponseWriter :=
  h.GetPost_with json.Marshal w r

/-- Lines 152-168, over the `json.Marshal` given as `M`. -/
def userHandler.Create_with (M : Marshal) (E : Env) (h : userHandler) (w : ResponseWriter)
    (r : Request) : userHandler × ResponseWriter :=
  match E.Decode_user r.Body with
  | Except.error _ => (h, internalServerError w r)
  | Except.ok u =>
    let h1 : userHandler :=
      { store := { m := h.store.m.insert u.ID u, m_post := h.store.m_post } }
    match M.ofUser u with
    | Except.error _ => (h1, internalServerError w r)
    | Except.ok jsonBytes => (h1, (w.WriteHeader StatusOK).Write jsonBytes)

/-- Lines 152-168. -/
def userHandler.Create (E : Env) (h : userHandler) (w : ResponseWriter) (r : Request) :
    userHandler × ResponseWriter :=
  h.Create_with json.Marshal E w r

/-- Lines 171-187, over the `json.Marshal` given as `M`. -/
def userHandler.CreatePost_with (M : Marshal) (E : Env) (h : userHandler)
    (w : ResponseWriter) (r : Request) : userHandler × ResponseWriter :=
  match E.Decode_post r.Body with
  | Except.error _ => (h, internalServerError w r)
  | Except.ok u =>
    let h1 : userHandler :=
      { store := { m := h.store.m, m_post := h.store.m_post.insert u.ID u } }
    match M.ofPost u with
    | Except.error _ => (h1, internalServerError w r)
    | Except.ok jsonBytes => (h1, (w.WriteHeader StatusOK).Write jsonBytes)

/-- Lines 171-187. -/
def userHandler.CreatePost (E : Env) (h : userHandler) (w : ResponseWriter) (r : Request) :
    userHandler × ResponseWriter :=
  h.CreatePost_with json.Marshal E w r

/-- Lines 44-70, the dispatcher, over the `json.Marshal` given as `M`. The cases of
the `switch` are tried in order. -/
def userHandler.ServeHTTP_with (M : Marshal) (E : Env) (h : userHandler) (w : ResponseWriter)
    (r : Request) : userHandler × ResponseWriter :=
  let w := w.HeaderSet "content-type" "application/json"
  if r.Method = MethodGet ∧ listUserRe.MatchString r.URL.Path = true then h.List_with M w r
  else if r.Method = MethodGet ∧ getUserRe.MatchString r.URL.Path = true then
    h.Get_with M w r
  else if r.Method = MethodPost ∧ createUserRe.MatchString r.URL.Path = true then
    h.Create_with M E w r
  else if r.Method = MethodGet ∧ listPostRe.MatchString r.URL.Path = true then
    h.ListPost_with M E w r
  else if r.Method = MethodGet ∧ getPostRe.MatchString r.URL.Path = true then
    h.GetPost_with M w r
  else if r.Method = MethodPost ∧ createPostrRe.MatchString r.URL.Path = true then
    h.CreatePost_with M E w r
  else (h, notFound w r)

/-- Lines 44-70: the dispatcher. -/
def userHandler.ServeHTTP (E : Env) (h : userHandler) (w : ResponseWriter) (r : Request) :
    userHandler × ResponseWriter :=
  h.ServeHTTP_with json.Marshal E w r

/-! ## A concrete decoder for closed examples

`flatJSON` reads one JSON object whose members are string literals, the way
`encoding/json` decodes such a body into a struct of string fields: a member is
assigned to the field carrying its name as JSON name, later members win, and
members with other names are ignored. It also reads the body `null`, a JSON value
`encoding/json` decodes into a struct without error and without changing it. Bodies
outside this fragment are reported as errors; the decoder is used at concrete
bodies of the fragment only. -/

/-- Skips JSON white space. -/
def flatJSON.skipWS : List Char → List Char
  | [] => []
  | c :: cs =>
    if c = ' ' ∨ c = '\t' ∨ c = '\n' ∨ c = '\r' then flatJSON.skipWS cs else c :: cs

/-- The character an escape `\e` stands for; `\u` escapes are outside the fragment. -/
def flatJSON.unescape (e : Char) : Option Char :=
  if e = '"' then some '"'
  else if e = '\\' then some '\\'
  else if e = '/' then some '/'
  else if e = 'b' then some (Char.ofNat 8)
  else if e = 'f' then some (Char.ofNat 12)
  else if e = 'n' then some '\n'
  else if e = 'r' then some '\r'
  else if e = 't' then some '\t'
  else none

/-- Reads a string literal whose opening quote has been consumed: the text read so
far is `acc` (reversed); the result is the text and what follows the closing quote. -/
def flatJSON.stringLit : List Char → List Char → Option (String × List Char)
  | _, [] => none
  | acc, c :: cs =>
    if c = '"' then some (String.mk acc.reverse, cs)
    else if c = '\\' then
      match cs with
      | [] => none
      | e :: cs1 =>
        match flatJSON.unescape e with
        | none => none
        | some d => flatJSON.stringLit (d :: acc) cs1
    else if c.toNat < 32 then none
    else flatJSON.stringLit (c :: acc) cs

/-- Reads the members of an object up to its closing brace; `fuel` bounds the
number of members. -/
def flatJSON.members : Nat → List Char → List (String × String) →
    Option (List (String × String))
  | 0, _, _ => none
  | fuel + 1, cs, acc =>
    match flatJSON.skipWS cs with
    | [] => none
    | q :: cs1 =>
      if q ≠ '"' then none
      else
        match flatJSON.stringLit [] cs1 with
        | none => none
        | some (k, cs2) =>
          match flatJSON.skipWS cs2 with
          | [] => none
          | colon :: cs3 =>
            if colon ≠ ':' then none
            else
              match flatJSON.skipWS cs3 with
              | [] => none
              | q2 :: cs4 =>
                if q2 ≠ '"' then none
                else
                  match flatJSON.stringLit [] cs4 with
                  | none => none
                  | some (v, cs5) =>
                    match flatJSON.skipWS cs5 with
                    | [] => none
                    | sep :: cs6 =>
                      if sep = ',' then flatJSON.members fuel cs6 (acc ++ [(k, v)])
                      else if sep = Char.ofNat 125 then some (acc ++ [(k, v)])
                      else none

/-- Reads the first JSON value of the body: the members of a flat object, in order,
or no member for the value `null`. -/
def flatJSON.object (body : String) : Option (List (String × String)) :=
  match flatJSON.skipWS body.data with
  | [] => none
  | open_ :: cs =>
    if dropLit "null".data (open_ :: cs) = some [] then some []
    else if open_ ≠ Char.ofNat 123 then none
    else
      match flatJSON.skipWS cs with
      | [] => none
      | c :: cs1 =>
        if c = Char.ofNat 125 then some []
        else flatJSON.members body.length (c :: cs1) []

/-- Assigns one member to a `user`. -/
def flatJSON.setUser (u : user) (kv : String × String) : user :=
  if kv.1 = "id" then { u with ID := kv.2 }
  else if kv.1 = "name" then { u with Name := kv.2 }
  else if kv.1 = "email" then { u with Email := kv.2 }
  else if kv.1 = "pass" then { u with Password := kv.2 }
  else u

/-- Assigns one member to a `post`. -/
def flatJSON.setPost (p : post) (kv : String × String) : post :=
  if kv.1 = "id" then { p with ID := kv.2 }
  else if kv.1 = "caption" then { p with Caption := kv.2 }
  else if kv.1 = "url" then { p with ImageURL := kv.2 }
  else if kv.1 = "stamp" then { p with Timestamp := kv.2 }
  else p

/-- Decodes a body into `var u user`, starting from the zero value. -/
def flatJSON.Decode_user (body : String) : Except String user :=
  match flatJSON.object body with
  | none => Except.error "json: cannot decode"
  | some kvs => Except.ok (kvs.foldl flatJSON.setUser ⟨"", "", "", ""⟩)

/-- Decodes a body into `var u post`, starting from the zero value. -/
def flatJSON.Decode_post (body : String) : Except String post :=
  match flatJSON.object body with
  | none => Except.error "json: cannot decode"
  | some kvs => Except.ok (kvs.foldl flatJSON.setPost ⟨"", "", "", ""⟩)

/-- The environment of the closed examples: the decoder above, and the empty
slice for the undeclared `users`. -/
def flatEnv : Env where
  Decode_user := flatJSON.Decode_user
  Decode_post := flatJSON.Decode_post
  users := []

/-- The user of line 205. -/
def bob : user := ⟨"1", "bob", "bob@gmail.com", "bob123"⟩

/-- The store `main` gives `userH` (lines 203-208): the user bob under key 1, and
no post. -/
def userH : userHandler :=
  { store := { m := AList.insert "1" bob ∅, m_post := ∅ } }

/-- A handler whose store is empty. -/
def emptyH : userHandler := { store := { m := ∅, m_post := ∅ } }

/-! ## Vocabulary of the statements -/

/-- A non-empty string of ASCII decimal digits: what `(\d+)` captures. -/
def allDigits (id : String) : Bool := !id.data.isEmpty && id.data.all isDigit

/-- A request the dispatcher hands to `Create`: a POST whose path is of the shape
`/users[/]*`. -/
def isCreate (r : Request) : Prop :=
  r.Method = MethodPost ∧ createUserRe.MatchString r.URL.Path = true

/-- A request the dispatcher hands to `CreatePost`: a POST whose path is of the
shape `/posts[/]*`. -/
def isCreatePost (r : Request) : Prop :=
  r.Method = MethodPost ∧ createPostrRe.MatchString r.URL.Path = true

/-- Handles the requests one after the other, each with a fresh response writer,
and returns the handler as the last request leaves it. -/
def run (E : Env) (h : userHandler) (rs : List Request) : userHandler :=
  rs.foldl (fun h r => (h.ServeHTTP E [] r).1) h

/-- The user a request body decodes to, if it decodes. -/
def decoded (E : Env) (r : Request) : Option user :=
  match E.Decode_user r.Body with
  | Except.ok u => some u
  | Except.error _ => none

/-- The users the bodies of the requests decode to, oldest first; requests whose
body does not decode contribute nothing. -/
def created (E : Env) (rs : List Request) : List user :=
  rs.filterMap (decoded E)

/-- The most recent of the users with the given ID. -/
def lastWithID (id : String) (us : List user) : Option user :=
  (us.filter (fun u => decide (u.ID = id))).getLast?

/-- The GET request for a path. -/
def GET (path : String) : Request := ⟨MethodGet, ⟨path⟩, ""⟩

/-- The POST request for a path and body. -/
def POST (path body : String) : Request := ⟨MethodPost, ⟨path⟩, body⟩

/-- A body creating the user `abc`. -/
def abcFirst : String := "\x7b\"id\":\"abc\",\"name\":\"first\"\x7d"

/-- A later body creating the user `abc` again, with another name. -/
def abcSecond : String := "\x7b\"id\":\"abc\",\"name\":\"second\"\x7d"

/-- The body of the scenario: the user bob with ID 1. -/
def bobBody : String :=
  "\x7b\"id\":\"1\",\"name\":\"bob\",\"email\":\"bob@gmail.com\",\"pass\":\"bob123\"\x7d"

/-- A post with ID 1, with the field values of line 215. -/
def selfie : post := ⟨"1", "Selfie", "flower.jpg", "2018-09-22T12:42:31Z"⟩

/-- The body creating the post `selfie`. -/
def selfieBody : String :=
  "\x7b\"id\":\"1\",\"caption\":\"Selfie\",\"url\":\"flower.jpg\",\"stamp\":\"2018-09-22T12:42:31Z\"\x7d"

/-- A body that is a JSON array, not an object. -/
def arrayBody : String := "[1,2]"

/-- A body creating the user `7`. -/
def sevenFirst : String := "\x7b\"id\":\"7\",\"name\":\"first\"\x7d"

/-- A later body creating the user `7` again, with another name. -/
def sevenSecond : String := "\x7b\"id\":\"7\",\"name\":\"second\"\x7d"

/-- A post with ID 2. -/
def dinner : post := ⟨"2", "Dinner", "dinner.jpg", "2018-09-23T19:00:00Z"⟩

/-- The body creating the post `dinner`. -/
def dinnerBody : String :=
  "\x7b\"id\":\"2\",\"caption\":\"Dinner\",\"url\":\"dinner.jpg\",\"stamp\":\"2018-09-23T19:00:00Z\"\x7d"

/-- The store `main` gives `postH` (lines 212-218): the post of line 215 under
key 1, and no user. -/
def postH : userHandler :=
  { store := { m := ∅, m_post := AList.insert "1" selfie ∅ } }

/-- A handler whose store holds the posts `selfie` and `dinner`. -/
def twoH : userHandler :=
  { store := { m := ∅, m_post := (AList.insert "1" selfie ∅).insert "2" dinner } }

/-- The users of a store, one for each key, in range order. -/
def userRecords (h : userHandler) : Slice user :=
  h.store.m.entries.map (fun kv => kv.2)

/-- The posts of a store, one for each key, in range order. -/
def postRecords (h : userHandler) : Slice post :=
  h.store.m_post.entries.map (fun kv => kv.2)

/-- The body `null`: a JSON value that is not an object. -/
def nullBody : String := "null"

/-- A `json.Marshal` that returns an error on every value. -/
def failingMarshal : Marshal where
  ofUser := fun _ => Except.error "json: error"
  ofPost := fun _ => Except.error "json: error"
  ofUsers := fun _ => Except.error "json: error"
  ofPosts := fun _ => Except.error "json: error"

/-- The status codes passed to `WriteHeader`, in the order of the calls. -/
def ResponseWriter.statusLines : ResponseWriter → List Nat
  | [] => []
  | Call.WriteHeader code :: w => code :: ResponseWriter.statusLines w
  | _ :: w => ResponseWriter.statusLines w

/-- The effect of `Header().Set(key, value)` on a header map: the key gets the
value, replacing what it had. -/
def headerPut (hs : List (String × String)) (key value : String) : List (String × String) :=
  (key, value) :: hs.filter (fun kv => decide (kv.1 ≠ key))

/-- The header map the client receives: the one that stands when the first
`WriteHeader` or `Write` is called, starting from the map `hs`; `none` while nothing
has been sent. A `Header().Set` after that point does not reach the client. -/
def ResponseWriter.sent : ResponseWriter → List (String × String) →
    Option (List (String × String))
  | [], _ => none
  | Call.HeaderSet key value :: w, hs => ResponseWriter.sent w (headerPut hs key value)
  | Call.WriteHeader _ :: _, hs => some hs
  | Call.Write _ :: _, hs => some hs

/-- A body that the `json.Marshal` given as `M` returned without error, on a user,
a post, a slice of users or a slice of posts. -/
def serializedBy (M : Marshal) (body : String) : Prop :=
  (∃ u : user, M.ofUser u = Except.ok body) ∨
  (∃ p : post, M.ofPost p = Except.ok body) ∨
  (∃ us : Slice user, M.ofUsers us = Except.ok body) ∨
  (∃ ps : Slice post, M.ofPosts ps = Except.ok body)

/-- The handler a case of the `switch` of `ServeHTTP` calls; `notFound` is the
default case. -/
inductive Action where
  | list
  | get
  | create
  | listPost
  | getPost
  | createPost
  | notFound
  deriving DecidableEq, Repr

/-- The six cases of the `switch` (lines 47-64), in source order: the method the
request has to have, the pattern its path has to match, and the handler called. -/
def routes : List (String × Regexp × Action) :=
  [(MethodGet, listUserRe, Action.list),
   (MethodGet, getUserRe, Action.get),
   (MethodPost, createUserRe, Action.create),
   (MethodGet, listPostRe, Action.listPost),
   (MethodGet, getPostRe, Action.getPost),
   (MethodPost, createPostrRe, Action.createPost)]

/-- The condition of one case of the `switch`. -/
def routeMatches (r : Request) (c : String × Regexp × Action) : Bool :=
  decide (r.Method = c.1) && c.2.1.MatchString r.URL.Path

/-- The handler a `switch` with the given cases, tried in the given order, calls
for a request. -/
def choose (table : List (String × Regexp × Action)) (r : Request) : Action :=
  match table.find? (routeMatches r) with
  | some c => c.2.2
  | none => Action.notFound

/-- Calls the handler. -/
def perform (E : Env) (h : userHandler) (w : ResponseWriter) (r : Request) :
    Action → userHandler × ResponseWriter
  | Action.list => h.List w r
  | Action.get => h.Get w r
  | Action.create => h.Create E w r
  | Action.listPost => h.ListPost E w r
  | Action.getPost => h.GetPost w r
  | Action.createPost => h.CreatePost E w r
  | Action.notFound => (h, notFound w r)

/-- A string made of `/` characters only (the empty string included): what
`[\/]*` matches. -/
def allSlashes (id : String) : Bool := id.data.all (fun c => decide (c = '/'))

/-- A body with no `id` member: the ID decodes to the empty string. -/
def anonBody : String := "\x7b\"name\":\"anon\"\x7d"

/-- A body whose ID is the one character `/`. -/
def slashBody : String := "\x7b\"id\":\"/\",\"name\":\"slash\"\x7d"

/-- A body whose ID is `abc` and a post with that ID. -/
def abcPostBody : String := "\x7b\"id\":\"abc\",\"caption\":\"c\"\x7d"

/-! ## Concurrent Create requests

net/http serves every request in a goroutine of its own. A goroutine running
`Create` on a body that decodes goes through: the decoding (lines 153-157),
`h.store.Lock()` (line 158), the assignment `h.store.m[u.ID] = u` (line 159),
`h.store.Unlock()` (line 160), and the encoding and writing of its response (lines
161-167). The scheduler runs one step of one goroutine at a time. A Go map
assignment is not atomic: it is two steps here, a read of the map and a write of the
map with the key set, so that another writer getting in between would lose an
insert. `Lock` can be taken only while no goroutine holds the mutex. -/

/-- Where a goroutine running `Create` stands. -/
inductive Pc where
  | atDecode
  | atLock
  | atRead
  | atWrite (seen : UserMap)
  | atUnlock
  | atRespond
  | done

/-- The goroutine is between `Lock` and `Unlock`. -/
def Pc.inCritical : Pc → Bool
  | Pc.atRead => true
  | Pc.atWrite _ => true
  | Pc.atUnlock => true
  | _ => false

/-- The goroutine has made its assignment to the map. -/
def Pc.wrote : Pc → Bool
  | Pc.atUnlock => true
  | Pc.atRespond => true
  | Pc.done => true
  | _ => false

/-- The goroutine has returned from `Create`. -/
def Pc.isDone : Pc → Bool
  | Pc.done => true
  | _ => false

/-- The shared state and the goroutines: the map, whether the mutex is held, and
where goroutine `i` stands. -/
structure World where
  m : UserMap
  locked : Bool
  pc : Nat → Pc

/-- The goroutines with goroutine `i` moved to `p`. -/
def World.move (s : World) (i : Nat) (p : Pc) : Nat → Pc :=
  fun j => if j = i then p else s.pc j

/-- One step of goroutine `i`, which creates the user `us[i]`; `none` when there
is no such goroutine, when it waits for the mutex, or when it has returned. -/
def step (us : List user) (s : World) (i : Nat) : Option World :=
  match us[i]? with
  | none => none
  | some u =>
    match s.pc i with
    | Pc.atDecode => some { m := s.m, locked := s.locked, pc := s.move i Pc.atLock }
    | Pc.atLock =>
      if s.locked = true then none
      else some { m := s.m, locked := true, pc := s.move i Pc.atRead }
    | Pc.atRead => some { m := s.m, locked := s.locked, pc := s.move i (Pc.atWrite s.m) }
    | Pc.atWrite seen =>
      some { m := seen.insert u.ID u, locked := s.locked,
             pc := s.move i Pc.atUnlock }
    | Pc.atUnlock => some { m := s.m, locked := false, pc := s.move i Pc.atRespond }
    | Pc.atRespond => some { m := s.m, locked := s.locked, pc := s.move i Pc.done }
    | Pc.done => none

/-- Runs the goroutines in the order a schedule names them, one step each time;
`none` when the schedule names a goroutine that cannot step. -/
def exec (us : List user) (s : World) : List Nat → Option World
  | [] => some s
  | i :: sched =>
    match step us s i with
    | none => none
    | some s1 => exec us s1 sched

/-- The state in which the requests arrive: the store as it is, the mutex free,
no goroutine started. -/
def World.init (m0 : UserMap) : World :=
  { m := m0, locked := false, pc := fun _ => Pc.atDecode }

/-- Every one of the goroutines has returned. -/
def finished (us : List user) (s : World) : Bool :=
  (List.range us.length).all (fun i => (s.pc i).isDone)

/-- The map after the Create requests for `us` have run concurrently under a
schedule and have all returned; `none` when the schedule is not a run of these
goroutines to completion. -/
def concurrentCreates (m0 : UserMap) (us : List user) (sched : List Nat) :
    Option UserMap :=
  match exec us (World.init m0) sched with
  | none => none
  | some s => if finished us s = true then some s.m else none

/-- What holds in every state the goroutines can reach from the map `m0`. -/
structure Inv (m0 : UserMap) (us : List user) (s : World) : Prop where
  crit_locked : ∀ j, (s.pc j).inCritical = true → s.locked = true
  crit_unique : ∀ j k, (s.pc j).inCritical = true → (s.pc k).inCritical = true → j = k
  read_fresh : ∀ j t, s.pc j = Pc.atWrite t → t = s.m
  has_written : ∀ j u, us[j]? = some u → (s.pc j).wrote = true →
    s.m.lookup u.ID = some u
  others_kept : ∀ k, (∀ j u, us[j]? = some u → (s.pc j).wrote = true → u.ID ≠ k) →
    s.m.lookup k = m0.lookup k

/-- The users 7 and 8, created concurrently in the examples. -/
def seven : user := ⟨"7", "first", "", ""⟩

/-- The second user of the concurrent example. -/
def eight : user := ⟨"8", "other", "", ""⟩

/-- The records the store holds from before under keys that are not the ID of one
of the given users, in range order. -/
def keptRecords (m0 : UserMap) (us : List user) : Slice user :=
  (m0.entries.filter (fun kv => decide (kv.1 ∉ us.map (fun u => u.ID)))).map (fun kv => kv.2)

/-- A schedule of the two goroutines creating `seven` and `eight`: both decode, the
second takes the mutex and makes its assignment, the first waits and makes its
assignment after the second has unlocked, while the second writes its response. -/
def interleaved : List Nat := [0, 1, 1, 1, 1, 1, 0, 1, 0, 0, 0, 0]

/-- The map of `userH` after `eight` and then `seven` have been assigned. -/
def bothCreated : UserMap :=
  (userH.store.m.insert "8" eight).insert "7" seven

/-! ## Lemmas on the response writer, the patterns and the map -/

theorem status_writeHeader (w : ResponseWriter) (c : Nat) (b : String)
    (hw : w.status = none) : ((w.WriteHeader c).Write b).status = some c := by
  induction w with
  | nil => rfl
  | cons x w ih =>
    cases x with
    | HeaderSet k v => exact ih hw
    | WriteHeader c1 => simp [ResponseWriter.status] at hw
    | Write b1 => simp [ResponseWriter.status] at hw

theorem body_writeHeader (w : ResponseWriter) (c : Nat) (b : String) :
    ((w.WriteHeader c).Write b).body = w.body ++ b := by
  induction w with
  | nil => simp [ResponseWriter.WriteHeader, ResponseWriter.Write, ResponseWriter.body]
  | cons x w ih =>
    cases x with
    | HeaderSet k v => exact ih
    | WriteHeader c1 => exact ih
    | Write b1 =>
      have h1 : ResponseWriter.Write (ResponseWriter.WriteHeader (Call.Write b1 :: w) c) b
          = Call.Write b1 :: ResponseWriter.Write (ResponseWriter.WriteHeader w c) b := rfl
      rw [h1]
      simp only [ResponseWriter.body]
      rw [ih, String.append_assoc]

theorem status_headerSet (k v : String) :
    (ResponseWriter.HeaderSet [] k v).status = none := rfl

theorem body_headerSet (k v : String) :
    (ResponseWriter.HeaderSet [] k v).body = "" := rfl

theorem dropLit_append (p s : List Char) : dropLit p (p ++ s) = some s := by
  induction p with
  | nil => cases s <;> rfl
  | cons c cs ih => simp [dropLit, ih]

theorem item_find_digits (lit id : String) (hid : allDigits id = true) :
    (Regexp.item lit).FindStringSubmatch (lit ++ id) = [lit ++ id, id] := by
  have h1 : (!id.data.isEmpty && id.data.all isDigit) = true := hid
  simp only [Regexp.FindStringSubmatch, String.data_append, dropLit_append, h1, if_true]

theorem item_find_other (lit id : String) (hid : allDigits id = false) :
    (Regexp.item lit).FindStringSubmatch (lit ++ id) = [] := by
  have h1 : (!id.data.isEmpty && id.data.all isDigit) = false := hid
  simp [Regexp.FindStringSubmatch, String.data_append, dropLit_append, h1]

theorem item_match_digits (lit id : String) (hid : allDigits id = true) :
    (Regexp.item lit).MatchString (lit ++ id) = true := by
  have h1 : (!id.data.isEmpty && id.data.all isDigit) = true := hid
  simp only [Regexp.MatchString, String.data_append, dropLit_append, h1]

theorem dropLit_eq_some (p s r : List Char) : dropLit p s = some r ↔ s = p ++ r := by
  induction p generalizing s with
  | nil => cases s <;> simp [dropLit, eq_comm]
  | cons c cs ih =>
    cases s with
    | nil => simp [dropLit]
    | cons d ds =>
      by_cases hcd : c = d
      · simp [dropLit, hcd, ih]
      · have hdc : ¬ d = c := fun e => hcd e.symm
        simp [dropLit, hcd, hdc]

theorem isDigit_ne_slash (c : Char) (hc : isDigit c = true) : c ≠ '/' := by
  intro h
  subst h
  simp [isDigit] at hc

theorem collection_no_item (lit id : String) (hid : allDigits id = true) :
    (Regexp.collection lit).MatchString (lit ++ "/" ++ id) = false := by
  have h1 : (!id.data.isEmpty && id.data.all isDigit) = true := hid
  simp only [Regexp.MatchString, String.data_append, List.append_assoc, dropLit_append]
  cases hd : id.data with
  | nil => simp [hd] at h1
  | cons c cs =>
    rw [hd] at h1
    have hc : isDigit c = true := by
      simp only [List.all_cons, Bool.and_eq_true] at h1
      exact h1.2.1
    have hne : c ≠ '/' := isDigit_ne_slash c hc
    simp [hne]

theorem serve_unfold (E : Env) (h : userHandler) (w : ResponseWriter) (r : Request) :
    h.ServeHTTP E w r =
      (let w := w.HeaderSet "content-type" "application/json"
       if r.Method = MethodGet ∧ listUserRe.MatchString r.URL.Path = true then h.List w r
       else if r.Method = MethodGet ∧ getUserRe.MatchString r.URL.Path = true then h.Get w r
       else if r.Method = MethodPost ∧ createUserRe.MatchString r.URL.Path = true then
         h.Create E w r
       else if r.Method = MethodGet ∧ listPostRe.MatchString r.URL.Path = true then
         h.ListPost E w r
       else if r.Method = MethodGet ∧ getPostRe.MatchString r.URL.Path = true then
         h.GetPost w r
       else if r.Method = MethodPost ∧ createPostrRe.MatchString r.URL.Path = true then
         h.CreatePost E w r
       else (h, notFound w r)) := rfl

theorem serve_create (E : Env) (h : userHandler) (w : ResponseWriter) (r : Request)
    (hr : isCreate r) :
    h.ServeHTTP E w r = h.Create E (w.HeaderSet "content-type" "application/json") r := by
  obtain ⟨hm, hp⟩ := hr
  simp [serve_unfold, hm, hp, MethodGet, MethodPost]

theorem serve_get (E : Env) (h : userHandler) (w : ResponseWriter) (id : String)
    (hid : allDigits id = true) :
    h.ServeHTTP E w (GET ("/users/" ++ id))
      = h.Get (w.HeaderSet "content-type" "application/json") (GET ("/users/" ++ id)) := by
  have h1 : listUserRe.MatchString ("/users/" ++ id) = false :=
    collection_no_item "/users" id hid
  have h2 : getUserRe.MatchString ("/users/" ++ id) = true :=
    item_match_digits "/users/" id hid
  simp [serve_unfold, GET, h1, h2]

theorem create_store (E : Env) (h : userHandler) (w : ResponseWriter) (r : Request) :
    (h.Create E w r).1.store.m =
      match decoded E r with
      | some u => h.store.m.insert u.ID u
      | none => h.store.m := by
  unfold userHandler.Create userHandler.Create_with decoded
  cases E.Decode_user r.Body <;> simp [json.Marshal, json.Marshal_user]

theorem lastWithID_cons (id : String) (u : user) (us : List user) :
    lastWithID id (u :: us) =
      match lastWithID id us with
      | some v => some v
      | none => if u.ID = id then some u else none := by
  unfold lastWithID
  by_cases hu : u.ID = id
  · have hf : List.filter (fun u => decide (u.ID = id)) (u :: us)
        = u :: List.filter (fun u => decide (u.ID = id)) us := by
      simp [List.filter_cons, hu]
    rw [hf, List.getLast?_cons, if_pos hu]
    cases (List.filter (fun u => decide (u.ID = id)) us).getLast? <;> rfl
  · have hf : List.filter (fun u => decide (u.ID = id)) (u :: us)
        = List.filter (fun u => decide (u.ID = id)) us := by
      simp [List.filter_cons, hu]
    rw [hf, if_neg hu]
    cases (List.filter (fun u => decide (u.ID = id)) us).getLast? <;> rfl

theorem lookup_run (E : Env) (id : String) (rs : List Request) :
    ∀ h : userHandler, (∀ r ∈ rs, isCreate r) →
      (run E h rs).store.m.lookup id =
        match lastWithID id (created E rs) with
        | some u => some u
        | none => h.store.m.lookup id := by
  induction rs with
  | nil => intro h _; rfl
  | cons r rs ih =>
    intro h hrs
    have hr : isCreate r := hrs r (List.mem_cons_self r rs)
    have hrest : ∀ x ∈ rs, isCreate x := fun x hx => hrs x (List.mem_cons_of_mem r hx)
    have hstep : run E h (r :: rs) = run E (h.ServeHTTP E [] r).1 rs := rfl
    rw [hstep, ih _ hrest, serve_create E h [] r hr, create_store]
    cases hd : decoded E r with
    | none =>
      have hc : created E (r :: rs) = created E rs := by
        simp [created, List.filterMap_cons, hd]
      rw [hc]
    | some u =>
      have hc : created E (r :: rs) = u :: created E rs := by
        simp [created, List.filterMap_cons, hd]
      rw [hc, lastWithID_cons]
      cases lastWithID id (created E rs) with
      | some v => rfl
      | none =>
        by_cases hu : u.ID = id
        · subst hu
          simp [AList.lookup_insert]
        · have hne : id ≠ u.ID := fun e => hu e.symm
          simp [hu, AList.lookup_insert_ne hne]

theorem marshal_user_ok (u : user) : ∃ s, json.Marshal.ofUser u = Except.ok s :=
  ⟨_, rfl⟩

theorem marshal_post_ok (p : post) : ∃ s, json.Marshal.ofPost p = Except.ok s :=
  ⟨_, rfl⟩

theorem get_digits (h : userHandler) (w : ResponseWriter) (r : Request) (id : String)
    (hp : r.URL.Path = "/users/" ++ id) (hid : allDigits id = true) :
    h.Get w r =
      match h.store.m.lookup id with
      | none => (h, (w.WriteHeader StatusNotFound).Write "user not found")
      | some u =>
        match json.Marshal.ofUser u with
        | Except.error _ => (h, internalServerError w r)
        | Except.ok jsonBytes => (h, (w.WriteHeader StatusOK).Write jsonBytes) := by
  have hf : getUserRe.FindStringSubmatch r.URL.Path = ["/users/" ++ id, id] := by
    rw [hp]; exact item_find_digits "/users/" id hid
  unfold userHandler.Get userHandler.Get_with
  rw [hf]
  rfl

theorem get_other (h : userHandler) (w : ResponseWriter) (r : Request) (id : String)
    (hp : r.URL.Path = "/users/" ++ id) (hid : allDigits id = false) :
    h.Get w r = (h, notFound w r) := by
  have hf : getUserRe.FindStringSubmatch r.URL.Path = [] := by
    rw [hp]; exact item_find_other "/users/" id hid
  unfold userHandler.Get userHandler.Get_with
  rw [hf]
  rfl

theorem users_pattern_on_posts (id : String) :
    getUserRe.FindStringSubmatch ("/posts/" ++ id) = [] := by
  have hd : dropLit "/users/".data ("/posts/" ++ id).data = none := rfl
  simp only [getUserRe, Regexp.FindStringSubmatch, hd]

theorem getPost_posts_path (h : userHandler) (w : ResponseWriter) (r : Request) (id : String)
    (hp : r.URL.Path = "/posts/" ++ id) :
    h.GetPost w r = (h, notFound w r) := by
  have hf : getUserRe.FindStringSubmatch r.URL.Path = [] := by
    rw [hp]; exact users_pattern_on_posts id
  unfold userHandler.GetPost userHandler.GetPost_with
  rw [hf]
  rfl

theorem status_notFound (w : ResponseWriter) (r : Request) (hw : w.status = none) :
    (notFound w r).status = some StatusNotFound :=
  status_writeHeader w StatusNotFound "not found" hw

/-! ## C1: last write wins -/

/-- C1 (amended): for every store and every ID that is a non-empty string of decimal
digits, after any sequence of Create requests on the users collection, GET
`/users/<ID>` responds 200 with the serialization of the most recently created user
with that ID. -/
theorem C1_last_write_wins (E : Env) (h : userHandler) (rs : List Request) (id : String)
    (u : user) (hrs : ∀ r ∈ rs, isCreate r) (hid : allDigits id = true)
    (hu : lastWithID id (created E rs) = some u) :
    ((run E h rs).ServeHTTP E [] (GET ("/users/" ++ id))).2.status = some StatusOK ∧
    ((run E h rs).ServeHTTP E [] (GET ("/users/" ++ id))).2.body = json.encode_user u := by
  have hl := lookup_run E id rs h hrs
  rw [hu] at hl
  rw [serve_get E _ [] id hid, get_digits _ _ (GET ("/users/" ++ id)) id rfl hid, hl]
  simp only [json.Marshal, json.Marshal_user]
  constructor
  · exact status_writeHeader _ _ _ (status_headerSet _ _)
  · rw [body_writeHeader, body_headerSet, String.empty_append]

/-- C1, at a concrete run: two users with ID 7 are created into the empty store, and
GET `/users/7` returns the second. -/
theorem C1_last_write_wins_witness :
    ((run flatEnv emptyH [POST "/users" sevenFirst, POST "/users" sevenSecond]).ServeHTTP
        flatEnv [] (GET ("/users/" ++ "7"))).2.status = some StatusOK ∧
    ((run flatEnv emptyH [POST "/users" sevenFirst, POST "/users" sevenSecond]).ServeHTTP
        flatEnv [] (GET ("/users/" ++ "7"))).2.body
      = json.encode_user ⟨"7", "second", "", ""⟩ :=
  C1_last_write_wins flatEnv emptyH [POST "/users" sevenFirst, POST "/users" sevenSecond]
    "7" ⟨"7", "second", "", ""⟩
    (by intro r hr; simp at hr; rcases hr with rfl | rfl <;> exact ⟨rfl, rfl⟩)
    (by decide) (by rfl)

/-- C1 as stated fails for an ID the get-by-id pattern rejects: both creates of the
user `abc` answer 200, the second being the most recent with that ID, and GET
`/users/abc` answers 404. -/
theorem C1_counterexample :
    (emptyH.ServeHTTP flatEnv [] (POST "/users" abcFirst)).2.status = some StatusOK ∧
    ((run flatEnv emptyH [POST "/users" abcFirst]).ServeHTTP flatEnv []
        (POST "/users" abcSecond)).2.status = some StatusOK ∧
    lastWithID "abc" (created flatEnv [POST "/users" abcFirst, POST "/users" abcSecond])
      = some ⟨"abc", "second", "", ""⟩ ∧
    ((run flatEnv emptyH [POST "/users" abcFirst, POST "/users" abcSecond]).ServeHTTP
        flatEnv [] (GET "/users/abc")).2.status = some StatusNotFound := by
  refine ⟨by rfl, by rfl, by rfl, by rfl⟩

/-! ## C2: an absent ID is not found -/

/-- C2: for every store and every ID that is not a key of the store, `Get` on the
path `/users/<ID>` and `GetPost` on the path `/posts/<ID>` respond 404, whatever else
the store holds; so does the dispatcher on GET when the ID is a string of digits. -/
theorem C2_get_absent_not_found (E : Env) (h : userHandler) (r q : Request) (id : String)
    (hid : id ∉ h.store.m)
    (hr : r.URL.Path = "/users/" ++ id) (hq : q.URL.Path = "/posts/" ++ id) :
    (h.Get [] r).2.status = some StatusNotFound ∧
    (h.GetPost [] q).2.status = some StatusNotFound ∧
    (allDigits id = true →
      (h.ServeHTTP E [] (GET ("/users/" ++ id))).2.status = some StatusNotFound) := by
  have hl : h.store.m.lookup id = none := AList.lookup_eq_none.2 hid
  refine ⟨?_, ?_, ?_⟩
  · cases hd : allDigits id with
    | true => rw [get_digits h [] r id hr hd, hl]; rfl
    | false => rw [get_other h [] r id hr hd]; rfl
  · rw [getPost_posts_path h [] q id hq]; rfl
  · intro hd
    rw [serve_get E h [] id hd, get_digits h _ (GET ("/users/" ++ id)) id rfl hd, hl]
    rfl

/-- C2, at a concrete store: the store holds user 1 only, and ID 999 is not found. -/
theorem C2_get_absent_not_found_witness :
    (userH.Get [] (GET "/users/999")).2.status = some StatusNotFound ∧
    (userH.GetPost [] (GET "/posts/999")).2.status = some StatusNotFound ∧
    (allDigits "999" = true →
      (userH.ServeHTTP flatEnv [] (GET ("/users/" ++ "999"))).2.status
        = some StatusNotFound) :=
  C2_get_absent_not_found flatEnv userH (GET "/users/999") (GET "/posts/999") "999"
    (by decide) rfl rfl

/-! ## C3: the length of the list -/

theorem users_eq_map (h : userHandler) :
    userHandler.List.users h = h.store.m.entries.map (fun kv => kv.2) := by
  have key : ∀ (l : List (Sigma (fun _ : String => user))) (acc : Slice user),
      l.foldl (fun users kv => users ++ [kv.2]) acc = acc ++ l.map (fun kv => kv.2) := by
    intro l
    induction l with
    | nil => intro acc; simp
    | cons x l ih => intro acc; simp [List.foldl_cons, ih]
  unfold userHandler.List.users
  rw [key]
  rfl

theorem users_length (h : userHandler) :
    (userHandler.List.users h).length = h.store.m.keys.length := by
  rw [users_eq_map]
  simp [AList.keys, List.keys]

theorem marshal_elems_ok {α : Type} (elem : α → Except String String)
    (helem : ∀ v, ∃ s, elem v = Except.ok s) (vs : Slice α) :
    ∃ ss, json.Marshal_elems elem vs = Except.ok ss ∧ ss.length = vs.length := by
  induction vs with
  | nil => exact ⟨[], rfl, rfl⟩
  | cons v vs ih =>
    obtain ⟨ss, hss, hlen⟩ := ih
    obtain ⟨s, hs⟩ := helem v
    refine ⟨s :: ss, ?_, by simp [hlen]⟩
    simp only [json.Marshal_elems, hs, hss]

theorem marshal_slice_ok {α : Type} (elem : α → Except String String)
    (helem : ∀ v, ∃ s, elem v = Except.ok s) (vs : Slice α) :
    ∃ s, json.Marshal_slice elem vs = Except.ok s := by
  obtain ⟨ss, hss, _⟩ := marshal_elems_ok elem helem vs
  exact ⟨"[" ++ String.intercalate "," ss ++ "]", by simp only [json.Marshal_slice, hss]⟩

theorem marshal_users_ok (vs : Slice user) : ∃ s, json.Marshal.ofUsers vs = Except.ok s :=
  marshal_slice_ok json.Marshal_user marshal_user_ok vs

theorem marshal_posts_ok (vs : Slice post) : ∃ s, json.Marshal.ofPosts vs = Except.ok s :=
  marshal_slice_ok json.Marshal_post marshal_post_ok vs

theorem serve_list (E : Env) (h : userHandler) (w : ResponseWriter) (r : Request)
    (hm : r.Method = MethodGet) (hp : listUserRe.MatchString r.URL.Path = true) :
    h.ServeHTTP E w r = h.List (w.HeaderSet "content-type" "application/json") r := by
  simp [serve_unfold, hm, hp]

theorem list_response (h : userHandler) (w : ResponseWriter) (r : Request) :
    ∃ body, json.Marshal_slice json.Marshal_user (userHandler.List.users h)
        = Except.ok body ∧
      h.List w r = (h, (w.WriteHeader StatusOK).Write body) := by
  obtain ⟨s, hs⟩ := marshal_users_ok (userHandler.List.users h)
  refine ⟨s, hs, ?_⟩
  simp only [userHandler.List, userHandler.List_with, hs]

theorem mem_run (E : Env) (k : String) (rs : List Request) :
    ∀ h : userHandler, (∀ r ∈ rs, isCreate r) →
      (k ∈ (run E h rs).store.m ↔
        k ∈ h.store.m ∨ k ∈ (created E rs).map (fun u => u.ID)) := by
  induction rs with
  | nil => intro h _; simp [run, created]
  | cons r rs ih =>
    intro h hrs
    have hr : isCreate r := hrs r (List.mem_cons_self r rs)
    have hrest : ∀ x ∈ rs, isCreate x := fun x hx => hrs x (List.mem_cons_of_mem r hx)
    have hstep : run E h (r :: rs) = run E (h.ServeHTTP E [] r).1 rs := rfl
    rw [hstep, ih _ hrest, serve_create E h [] r hr, create_store]
    cases hd : decoded E r with
    | none =>
      have hc : created E (r :: rs) = created E rs := by
        simp [created, List.filterMap_cons, hd]
      rw [hc]
    | some u =>
      have hc : created E (r :: rs) = u :: created E rs := by
        simp [created, List.filterMap_cons, hd]
      rw [hc]
      simp only [AList.mem_insert, List.map_cons, List.mem_cons]
      tauto

/-- C3: after any sequence of Create requests, GET `/users` responds 200 with the
encoding of a slice whose length is the number of distinct IDs among the keys the
store started with and the IDs of the records created; and creating a record whose
ID is already a key leaves that length as it was. -/
theorem C3_list_length (E : Env) (h : userHandler) (rs : List Request)
    (hrs : ∀ r ∈ rs, isCreate r) :
    ((run E h rs).ServeHTTP E [] (GET "/users")).2.status = some StatusOK ∧
    json.Marshal_slice json.Marshal_user (userHandler.List.users (run E h rs))
      = Except.ok ((run E h rs).ServeHTTP E [] (GET "/users")).2.body ∧
    (userHandler.List.users (run E h rs)).length
      = (h.store.m.keys ++ (created E rs).map (fun u => u.ID)).dedup.length ∧
    (∀ (r : Request) (u : user), isCreate r → decoded E r = some u → u.ID ∈ h.store.m →
      (userHandler.List.users (h.ServeHTTP E [] r).1).length
        = (userHandler.List.users h).length) := by
  refine ⟨?_, ?_, ?_, ?_⟩
  · rw [serve_list E _ [] (GET "/users") rfl rfl]
    obtain ⟨body, _, hb⟩ := list_response (run E h rs) (ResponseWriter.HeaderSet []
      "content-type" "application/json") (GET "/users")
    rw [hb]
    exact status_writeHeader _ _ _ (status_headerSet _ _)
  · rw [serve_list E _ [] (GET "/users") rfl rfl]
    obtain ⟨body, hm, hb⟩ := list_response (run E h rs) (ResponseWriter.HeaderSet []
      "content-type" "application/json") (GET "/users")
    rw [hb, hm]
    simp only [body_writeHeader, body_headerSet, String.empty_append]
  · rw [users_length]
    apply List.Perm.length_eq
    rw [List.perm_ext_iff_of_nodup (AList.keys_nodup _) (List.nodup_dedup _)]
    intro k
    rw [List.mem_dedup, List.mem_append, ← AList.mem_keys, ← AList.mem_keys]
    exact mem_run E k rs h hrs
  · intro r u hr hd hmem
    rw [users_length, users_length, serve_create E h [] r hr, create_store, hd]
    simp only [AList.keys_insert]
    have hk : u.ID ∈ h.store.m.keys := AList.mem_keys.1 hmem
    rw [List.length_cons, List.length_erase_of_mem hk]
    have hpos : 0 < h.store.m.keys.length := List.length_pos_of_mem hk
    omega

/-- C3, at a concrete run: the store holds user 1; creating user 7 twice and user 1
once gives a list of two records. -/
theorem C3_list_length_witness :
    (userHandler.List.users (run flatEnv userH
        [POST "/users" sevenFirst, POST "/users" sevenSecond, POST "/users/" bobBody])).length
      = 2 := by
  have hc := (C3_list_length flatEnv userH
    [POST "/users" sevenFirst, POST "/users" sevenSecond, POST "/users/" bobBody]
    (by intro r hr; simp at hr; rcases hr with rfl | rfl | rfl <;> exact ⟨rfl, rfl⟩)).2.2.1
  rw [hc]
  rfl

/-! ## C4: a body that does not decode -/

theorem posts_not_users (p : String)
    (hp : (Regexp.collection "/posts").MatchString p = true) :
    (Regexp.collection "/users").MatchString p = false := by
  simp only [Regexp.MatchString] at hp ⊢
  cases hd : dropLit "/posts".data p.data with
  | none => rw [hd] at hp; exact absurd hp (by simp)
  | some rest =>
    have hpd : p.data = "/posts".data ++ rest := (dropLit_eq_some _ _ _).1 hd
    have hn : dropLit "/users".data ("/posts".data ++ rest) = none := rfl
    rw [hpd, hn]

theorem serve_createPost (E : Env) (h : userHandler) (w : ResponseWriter) (r : Request)
    (hr : isCreatePost r) :
    h.ServeHTTP E w r = h.CreatePost E (w.HeaderSet "content-type" "application/json") r := by
  obtain ⟨hm, hp⟩ := hr
  have hu : createUserRe.MatchString r.URL.Path = false := posts_not_users _ hp
  simp [serve_unfold, hm, hp, hu, MethodGet, MethodPost]

theorem create_error (E : Env) (h : userHandler) (w : ResponseWriter) (r : Request)
    (e : String) (hd : E.Decode_user r.Body = Except.error e) :
    h.Create E w r = (h, internalServerError w r) := by
  simp only [userHandler.Create, userHandler.Create_with, hd]

theorem createPost_error (E : Env) (h : userHandler) (w : ResponseWriter) (r : Request)
    (e : String) (hd : E.Decode_post r.Body = Except.error e) :
    h.CreatePost E w r = (h, internalServerError w r) := by
  simp only [userHandler.CreatePost, userHandler.CreatePost_with, hd]

theorem status_internalServerError (w : ResponseWriter) (r : Request)
    (hw : w.status = none) :
    (internalServerError w r).status = some StatusInternalServerError :=
  status_writeHeader w StatusInternalServerError "internal server error" hw

/-- C4 (amended): when `Decode` returns an error on the body of a POST on a path
`/posts[/]*`, the response is 500 with the text of `internalServerError`, the handler
and its store are as before, and so GET `/posts` answers afterwards what it answered
before; the same for a POST on a path `/users[/]*` and GET `/users`. -/
theorem C4_malformed_body (E : Env) (h : userHandler) (r q : Request) (e f : String)
    (hr : isCreatePost r) (hre : E.Decode_post r.Body = Except.error e)
    (hq : isCreate q) (hqe : E.Decode_user q.Body = Except.error f) :
    ((h.ServeHTTP E [] r).2.status = some StatusInternalServerError ∧
      (h.ServeHTTP E [] r).2.body = "internal server error" ∧
      (h.ServeHTTP E [] r).1 = h ∧
      ((h.ServeHTTP E [] r).1.ServeHTTP E [] (GET "/posts")).2
        = (h.ServeHTTP E [] (GET "/posts")).2) ∧
    ((h.ServeHTTP E [] q).2.status = some StatusInternalServerError ∧
      (h.ServeHTTP E [] q).2.body = "internal server error" ∧
      (h.ServeHTTP E [] q).1 = h ∧
      ((h.ServeHTTP E [] q).1.ServeHTTP E [] (GET "/users")).2
        = (h.ServeHTTP E [] (GET "/users")).2) := by
  rw [serve_createPost E h [] r hr, createPost_error E h _ r e hre,
    serve_create E h [] q hq, create_error E h _ q f hqe]
  exact ⟨⟨rfl, rfl, rfl, rfl⟩, ⟨rfl, rfl, rfl, rfl⟩⟩

/-- C4, at a concrete request: a JSON array is posted to `/posts` and to `/users`
of the store holding user 1. -/
theorem C4_malformed_body_witness :
    ((userH.ServeHTTP flatEnv [] (POST "/posts" arrayBody)).2.status
        = some StatusInternalServerError ∧
      (userH.ServeHTTP flatEnv [] (POST "/posts" arrayBody)).2.body
        = "internal server error" ∧
      (userH.ServeHTTP flatEnv [] (POST "/posts" arrayBody)).1 = userH ∧
      ((userH.ServeHTTP flatEnv [] (POST "/posts" arrayBody)).1.ServeHTTP flatEnv []
          (GET "/posts")).2
        = (userH.ServeHTTP flatEnv [] (GET "/posts")).2) ∧
    ((userH.ServeHTTP flatEnv [] (POST "/users" arrayBody)).2.status
        = some StatusInternalServerError ∧
      (userH.ServeHTTP flatEnv [] (POST "/users" arrayBody)).2.body
        = "internal server error" ∧
      (userH.ServeHTTP flatEnv [] (POST "/users" arrayBody)).1 = userH ∧
      ((userH.ServeHTTP flatEnv [] (POST "/users" arrayBody)).1.ServeHTTP flatEnv []
          (GET "/users")).2
        = (userH.ServeHTTP flatEnv [] (GET "/users")).2) :=
  C4_malformed_body flatEnv userH (POST "/posts" arrayBody) (POST "/users" arrayBody)
    "json: cannot decode" "json: cannot decode" ⟨rfl, rfl⟩ rfl ⟨rfl, rfl⟩ rfl

/-- C4 as stated fails for the body `null`, which is not a JSON object and which
`Decode` accepts: POST `/posts` with it answers 200 and adds a post under the empty
ID, so that GET `/posts` answers `[]` before and an array of one post after; POST
`/users` with it answers 200 and adds a user under the empty ID. -/
theorem C4_counterexample :
    ((userH.ServeHTTP flatEnv [] (POST "/posts" nullBody)).2.status = some StatusOK ∧
      userH.store.m_post.lookup "" = none ∧
      (userH.ServeHTTP flatEnv [] (POST "/posts" nullBody)).1.store.m_post.lookup ""
        = some ⟨"", "", "", ""⟩ ∧
      (userH.ServeHTTP flatEnv [] (GET "/posts")).2.body = "[]" ∧
      ((userH.ServeHTTP flatEnv [] (POST "/posts" nullBody)).1.ServeHTTP flatEnv []
        (GET "/posts")).2.body = "[" ++ json.encode_post ⟨"", "", "", ""⟩ ++ "]") ∧
    ((userH.ServeHTTP flatEnv [] (POST "/users" nullBody)).2.status = some StatusOK ∧
      userH.store.m.lookup "" = none ∧
      (userH.ServeHTTP flatEnv [] (POST "/users" nullBody)).1.store.m.lookup ""
        = some ⟨"", "", "", ""⟩ ∧
      (userHandler.List.users userH).length = 1 ∧
      (userHandler.List.users
        (userH.ServeHTTP flatEnv [] (POST "/users" nullBody)).1).length = 2) := by
  refine ⟨⟨by rfl, by rfl, by rfl, by rfl, by rfl⟩, ⟨by rfl, by rfl, by rfl, by rfl, by rfl⟩⟩

/-! ## C5: paths that match no pattern -/

/-- C5: when the path matches none of the four patterns, the dispatcher responds 404
with the text of `notFound`, for every method and body, and leaves the handler and
its store as they were. -/
theorem C5_unmatched_path (E : Env) (h : userHandler) (r : Request)
    (h1 : listUserRe.MatchString r.URL.Path = false)
    (h2 : getUserRe.MatchString r.URL.Path = false)
    (h3 : listPostRe.MatchString r.URL.Path = false)
    (h4 : getPostRe.MatchString r.URL.Path = false) :
    (h.ServeHTTP E [] r).2.status = some StatusNotFound ∧
    (h.ServeHTTP E [] r).2.body = "not found" ∧
    (h.ServeHTTP E [] r).1 = h := by
  have h5 : createUserRe.MatchString r.URL.Path = false := h1
  have h6 : createPostrRe.MatchString r.URL.Path = false := h3
  have hs : h.ServeHTTP E [] r
      = (h, notFound (ResponseWriter.HeaderSet [] "content-type" "application/json") r) := by
    simp [serve_unfold, h1, h2, h3, h4, h5, h6]
  rw [hs]
  exact ⟨rfl, rfl, rfl⟩

/-- C5, at the path `/users/abc`, for the methods GET, POST and DELETE. -/
theorem C5_unmatched_path_witness :
    ((userH.ServeHTTP flatEnv [] (GET "/users/abc")).2.status = some StatusNotFound ∧
      (userH.ServeHTTP flatEnv [] (GET "/users/abc")).2.body = "not found" ∧
      (userH.ServeHTTP flatEnv [] (GET "/users/abc")).1 = userH) ∧
    ((userH.ServeHTTP flatEnv [] (POST "/users/abc" bobBody)).2.status
        = some StatusNotFound ∧
      (userH.ServeHTTP flatEnv [] (POST "/users/abc" bobBody)).2.body = "not found" ∧
      (userH.ServeHTTP flatEnv [] (POST "/users/abc" bobBody)).1 = userH) ∧
    ((userH.ServeHTTP flatEnv [] ⟨"DELETE", ⟨"/users/abc"⟩, ""⟩).2.status
        = some StatusNotFound ∧
      (userH.ServeHTTP flatEnv [] ⟨"DELETE", ⟨"/users/abc"⟩, ""⟩).2.body = "not found" ∧
      (userH.ServeHTTP flatEnv [] ⟨"DELETE", ⟨"/users/abc"⟩, ""⟩).1 = userH) :=
  ⟨C5_unmatched_path flatEnv userH (GET "/users/abc") rfl rfl rfl rfl,
   C5_unmatched_path flatEnv userH (POST "/users/abc" bobBody) rfl rfl rfl rfl,
   C5_unmatched_path flatEnv userH ⟨"DELETE", ⟨"/users/abc"⟩, ""⟩ rfl rfl rfl rfl⟩

/-! ## Requests that leave the store alone -/

theorem list_store (h : userHandler) (w : ResponseWriter) (r : Request) :
    (h.List w r).1 = h := by
  unfold userHandler.List userHandler.List_with
  dsimp only
  split <;> rfl

theorem listPost_store (E : Env) (h : userHandler) (w : ResponseWriter) (r : Request) :
    (h.ListPost E w r).1 = h := by
  unfold userHandler.ListPost userHandler.ListPost_with
  dsimp only
  split <;> rfl

theorem get_store (h : userHandler) (w : ResponseWriter) (r : Request) :
    (h.Get w r).1 = h := by
  unfold userHandler.Get userHandler.Get_with
  dsimp only
  split
  · rfl
  · split
    · rfl
    · split <;> rfl

theorem getPost_store (h : userHandler) (w : ResponseWriter) (r : Request) :
    (h.GetPost w r).1 = h := by
  unfold userHandler.GetPost userHandler.GetPost_with
  dsimp only
  split
  · rfl
  · split
    · rfl
    · split <;> rfl

theorem serve_get_method_store (E : Env) (h : userHandler) (w : ResponseWriter)
    (r : Request) (hm : r.Method = MethodGet) : (h.ServeHTTP E w r).1 = h := by
  rw [serve_unfold]
  have hne : ¬ r.Method = MethodPost := by rw [hm]; decide
  simp only [hne, false_and, if_false]
  split_ifs
  · exact list_store _ _ _
  · exact get_store _ _ _
  · exact listPost_store _ _ _ _
  · exact getPost_store _ _ _
  · rfl

theorem create_ok (E : Env) (h : userHandler) (w : ResponseWriter) (r : Request) (u : user)
    (hd : E.Decode_user r.Body = Except.ok u) :
    h.Create E w r =
      ({ store := { m := h.store.m.insert u.ID u, m_post := h.store.m_post } },
        (w.WriteHeader StatusOK).Write (json.encode_user u)) := by
  simp only [userHandler.Create, userHandler.Create_with, hd, json.Marshal, json.Marshal_user]

theorem createPost_ok (E : Env) (h : userHandler) (w : ResponseWriter) (r : Request)
    (p : post) (hd : E.Decode_post r.Body = Except.ok p) :
    h.CreatePost E w r =
      ({ store := { m := h.store.m, m_post := h.store.m_post.insert p.ID p } },
        (w.WriteHeader StatusOK).Write (json.encode_post p)) := by
  simp only [userHandler.CreatePost, userHandler.CreatePost_with, hd, json.Marshal,
    json.Marshal_post]

/-! ## C6: the scenario -/

theorem entries_insert_one (m : UserMap) (v : user) (hk : ∀ k ∈ m, k = "1") :
    (m.insert "1" v).entries = [⟨"1", v⟩] := by
  rw [AList.insert_entries]
  have hke : List.kerase "1" m.entries = [] := by
    obtain ⟨entries, nd⟩ := m
    cases entries with
    | nil => rfl
    | cons x rest =>
      have hx : x.1 = "1" := hk x.1 (by simp [AList.mem_keys, AList.keys, List.keys])
      cases rest with
      | nil =>
        obtain ⟨k, b⟩ := x
        simp only at hx
        subst hx
        simp [List.kerase]
      | cons y rest =>
        have hy : y.1 = "1" := hk y.1 (by simp [AList.mem_keys, AList.keys, List.keys])
        have hnd := (List.nodupKeys_cons.1 nd).1
        exact absurd (by simp [List.keys, hx, hy]) hnd
  rw [hke]

theorem userH_keys : ∀ k ∈ userH.store.m, k = "1" := by
  intro k hk
  rcases (AList.mem_insert _).1 hk with h1 | h1
  · exact h1
  · exact absurd h1 (AList.not_mem_empty k)

/-- C6: from a users store with no key other than 1, and with the scenario body
decoding to bob: POST `/users` answers 200 and echoes the body; then GET `/users/1`
answers 200 with the same body; then GET `/users/999` answers 404; then GET `/users`
answers 200 with the array of that one record. -/
theorem C6_scenario (E : Env) (h : userHandler)
    (hk : ∀ k ∈ h.store.m, k = "1") (hd : E.Decode_user bobBody = Except.ok bob) :
    (h.ServeHTTP E [] (POST "/users" bobBody)).2.status = some StatusOK ∧
    (h.ServeHTTP E [] (POST "/users" bobBody)).2.body = bobBody ∧
    ((run E h [POST "/users" bobBody]).ServeHTTP E [] (GET "/users/1")).2.status
      = some StatusOK ∧
    ((run E h [POST "/users" bobBody]).ServeHTTP E [] (GET "/users/1")).2.body = bobBody ∧
    ((run E h [POST "/users" bobBody, GET "/users/1"]).ServeHTTP E []
      (GET "/users/999")).2.status = some StatusNotFound ∧
    ((run E h [POST "/users" bobBody, GET "/users/1", GET "/users/999"]).ServeHTTP E []
      (GET "/users")).2.status = some StatusOK ∧
    ((run E h [POST "/users" bobBody, GET "/users/1", GET "/users/999"]).ServeHTTP E []
      (GET "/users")).2.body = "[" ++ bobBody ++ "]" ∧
    userHandler.List.users
      (run E h [POST "/users" bobBody, GET "/users/1", GET "/users/999"])
      = [bob] := by
  have hpost : h.ServeHTTP E [] (POST "/users" bobBody)
      = ({ store := { m := h.store.m.insert "1" bob, m_post := h.store.m_post } },
          (ResponseWriter.WriteHeader (ResponseWriter.HeaderSet [] "content-type"
            "application/json") StatusOK).Write (json.encode_user bob)) := by
    rw [serve_create E h [] (POST "/users" bobBody) ⟨rfl, rfl⟩,
      create_ok E h _ (POST "/users" bobBody) bob hd]
    rfl
  have henc : json.encode_user bob = bobBody := by rfl
  have hrun1 : run E h [POST "/users" bobBody]
      = { store := { m := h.store.m.insert "1" bob, m_post := h.store.m_post } } := by
    show (h.ServeHTTP E [] (POST "/users" bobBody)).1 = _
    rw [hpost]
  have hrun2 : run E h [POST "/users" bobBody, GET "/users/1"]
      = run E h [POST "/users" bobBody] := by
    show ((run E h [POST "/users" bobBody]).ServeHTTP E [] (GET "/users/1")).1 = _
    exact serve_get_method_store E _ [] _ rfl
  have hrun3 : run E h [POST "/users" bobBody, GET "/users/1", GET "/users/999"]
      = run E h [POST "/users" bobBody] := by
    show ((run E h [POST "/users" bobBody, GET "/users/1"]).ServeHTTP E []
      (GET "/users/999")).1 = _
    rw [serve_get_method_store E _ [] _ rfl, hrun2]
  have hl1 : (h.store.m.insert "1" bob).lookup "1"
      = some bob := AList.lookup_insert _
  have hl999 : (h.store.m.insert "1" bob).lookup "999" = none := by
    rw [AList.lookup_eq_none, AList.mem_insert]
    rintro (h9 | h9)
    · exact absurd h9 (by decide)
    · exact absurd (hk "999" h9) (by decide)
  have hus : userHandler.List.users
      { store := { m := h.store.m.insert "1" bob, m_post := h.store.m_post } }
      = [bob] := by
    rw [users_eq_map]
    show List.map _ (h.store.m.insert "1" bob).entries = _
    rw [entries_insert_one _ _ hk]
    rfl
  have hget1 := get_digits { store := { m := h.store.m.insert "1" bob, m_post := h.store.m_post } }
    (ResponseWriter.HeaderSet [] "content-type" "application/json")
    (GET ("/users/" ++ "1")) "1" rfl (by decide)
  have hget999 := get_digits { store := { m := h.store.m.insert "1" bob, m_post := h.store.m_post } }
    (ResponseWriter.HeaderSet [] "content-type" "application/json")
    (GET ("/users/" ++ "999")) "999" rfl (by decide)
  have hs1 := serve_get E { store := { m := h.store.m.insert "1" bob, m_post := h.store.m_post } }
    [] "1" (by decide)
  have hs999 := serve_get E { store := { m := h.store.m.insert "1" bob, m_post := h.store.m_post } }
    [] "999" (by decide)
  have e1 : ("/users/" ++ "1" : String) = "/users/1" := by decide
  have e999 : ("/users/" ++ "999" : String) = "/users/999" := by decide
  rw [e1] at hget1 hs1
  rw [e999] at hget999 hs999
  simp only [hl1] at hget1
  simp only [hl999] at hget999
  rw [hrun3, hrun2, hrun1, hpost, hs1, hget1, hs999, hget999,
    serve_list E _ [] (GET "/users") rfl rfl]
  simp only [userHandler.List, userHandler.List_with, hus]
  refine ⟨rfl, ?_, rfl, ?_, rfl, rfl, ?_, trivial⟩
  · rw [← henc]; rfl
  · rfl
  · rfl

/-- C6, with the decoder of the examples, from the empty store and from the store
`main` seeds with bob. -/
theorem C6_scenario_witness :
    ((emptyH.ServeHTTP flatEnv [] (POST "/users" bobBody)).2.body = bobBody ∧
      userHandler.List.users
        (run flatEnv emptyH [POST "/users" bobBody, GET "/users/1", GET "/users/999"])
        = [bob]) ∧
    ((userH.ServeHTTP flatEnv [] (POST "/users" bobBody)).2.body = bobBody ∧
      userHandler.List.users
        (run flatEnv userH [POST "/users" bobBody, GET "/users/1", GET "/users/999"])
        = [bob]) :=
  ⟨⟨(C6_scenario flatEnv emptyH (by intro k hk; exact absurd hk (AList.not_mem_empty k))
        rfl).2.1,
    (C6_scenario flatEnv emptyH (by intro k hk; exact absurd hk (AList.not_mem_empty k))
        rfl).2.2.2.2.2.2.2⟩,
   ⟨(C6_scenario flatEnv userH
        userH_keys
        rfl).2.1,
    (C6_scenario flatEnv userH
        userH_keys
        rfl).2.2.2.2.2.2.2⟩⟩

/-! ## C7: get by id on the posts collection -/

theorem serve_getPost (E : Env) (h : userHandler) (w : ResponseWriter) (id : String)
    (hid : allDigits id = true) :
    h.ServeHTTP E w (GET ("/posts/" ++ id))
      = h.GetPost (w.HeaderSet "content-type" "application/json") (GET ("/posts/" ++ id)) := by
  have hd : dropLit "/users".data ("/posts/" ++ id).data = none := rfl
  have hd2 : dropLit "/users/".data ("/posts/" ++ id).data = none := rfl
  have h1 : listUserRe.MatchString ("/posts/" ++ id) = false := by
    simp only [listUserRe, Regexp.MatchString, hd]
  have h2 : getUserRe.MatchString ("/posts/" ++ id) = false := by
    simp only [getUserRe, Regexp.MatchString, hd2]
  have h3 : listPostRe.MatchString ("/posts/" ++ id) = false :=
    collection_no_item "/posts" id hid
  have h4 : getPostRe.MatchString ("/posts/" ++ id) = true :=
    item_match_digits "/posts/" id hid
  simp [serve_unfold, GET, h1, h2, h3, h4, MethodGet, MethodPost]

/-- C7 (what the code does): for every store and every ID that is a non-empty string
of digits, GET `/posts/<ID>` is answered 404 with the text `not found`, also when the
store holds a post under that ID: `GetPost` applies the users pattern to the path,
which no path under `/posts/` matches. -/
theorem C7_get_post_not_found (E : Env) (h : userHandler) (id : String)
    (hid : allDigits id = true) :
    (h.ServeHTTP E [] (GET ("/posts/" ++ id))).2.status = some StatusNotFound ∧
    (h.ServeHTTP E [] (GET ("/posts/" ++ id))).2.body = "not found" := by
  rw [serve_getPost E h [] id hid, getPost_posts_path h _ (GET ("/posts/" ++ id)) id rfl]
  exact ⟨rfl, rfl⟩

/-- C7, at the failing input: the post with ID 1 is created with POST `/posts`, the
store holds it under key 1, and GET `/posts/1` answers 404 `not found`. -/
theorem C7_get_post_not_found_witness :
    (emptyH.ServeHTTP flatEnv [] (POST "/posts" selfieBody)).2.status = some StatusOK ∧
    (run flatEnv emptyH [POST "/posts" selfieBody]).store.m_post.lookup "1"
      = some selfie ∧
    ((run flatEnv emptyH [POST "/posts" selfieBody]).ServeHTTP flatEnv []
      (GET ("/posts/" ++ "1"))).2.status = some StatusNotFound ∧
    ((run flatEnv emptyH [POST "/posts" selfieBody]).ServeHTTP flatEnv []
      (GET ("/posts/" ++ "1"))).2.body = "not found" :=
  ⟨by rfl, by rfl,
    C7_get_post_not_found flatEnv (run flatEnv emptyH [POST "/posts" selfieBody]) "1"
      (by decide)⟩

/-! ## C9: what Create changes -/

/-- C9: when the body decodes to a record, `Create` (and `CreatePost`) responds 200
with the encoding of that record, the new users map (posts map) holds the record
under its ID, every other key maps to what it mapped to before, and the other map
is as it was. -/
theorem C9_create_frame (E : Env) (h : userHandler) (r q : Request) (u : user) (p : post)
    (hr : E.Decode_user r.Body = Except.ok u) (hq : E.Decode_post q.Body = Except.ok p) :
    ((h.Create E [] r).2.status = some StatusOK ∧
      (h.Create E [] r).2.body = json.encode_user u ∧
      (h.Create E [] r).1.store.m.lookup u.ID = some u ∧
      (∀ k, k ≠ u.ID → (h.Create E [] r).1.store.m.lookup k = h.store.m.lookup k) ∧
      (h.Create E [] r).1.store.m_post = h.store.m_post) ∧
    ((h.CreatePost E [] q).2.status = some StatusOK ∧
      (h.CreatePost E [] q).2.body = json.encode_post p ∧
      (h.CreatePost E [] q).1.store.m_post.lookup p.ID = some p ∧
      (∀ k, k ≠ p.ID →
        (h.CreatePost E [] q).1.store.m_post.lookup k = h.store.m_post.lookup k) ∧
      (h.CreatePost E [] q).1.store.m = h.store.m) := by
  rw [create_ok E h [] r u hr, createPost_ok E h [] q p hq]
  refine ⟨⟨rfl, ?_, AList.lookup_insert _, fun k hk => AList.lookup_insert_ne hk, rfl⟩,
    ⟨rfl, ?_, AList.lookup_insert _, fun k hk => AList.lookup_insert_ne hk, rfl⟩⟩
  · rw [body_writeHeader]; rfl
  · rw [body_writeHeader]; rfl

/-- C9, at concrete requests on the store holding user 1: the user 7 and the post 1
are created. -/
theorem C9_create_frame_witness :
    ((userH.Create flatEnv [] (POST "/users" sevenFirst)).2.status = some StatusOK ∧
      (userH.Create flatEnv [] (POST "/users" sevenFirst)).2.body
        = json.encode_user ⟨"7", "first", "", ""⟩ ∧
      (userH.Create flatEnv [] (POST "/users" sevenFirst)).1.store.m.lookup "7"
        = some (⟨"7", "first", "", ""⟩ : user) ∧
      (∀ k, k ≠ "7" →
        (userH.Create flatEnv [] (POST "/users" sevenFirst)).1.store.m.lookup k
          = userH.store.m.lookup k) ∧
      (userH.Create flatEnv [] (POST "/users" sevenFirst)).1.store.m_post
        = userH.store.m_post) ∧
    ((userH.CreatePost flatEnv [] (POST "/posts" selfieBody)).2.status = some StatusOK ∧
      (userH.CreatePost flatEnv [] (POST "/posts" selfieBody)).2.body
        = json.encode_post selfie ∧
      (userH.CreatePost flatEnv [] (POST "/posts" selfieBody)).1.store.m_post.lookup "1"
        = some selfie ∧
      (∀ k, k ≠ "1" →
        (userH.CreatePost flatEnv [] (POST "/posts" selfieBody)).1.store.m_post.lookup k
          = userH.store.m_post.lookup k) ∧
      (userH.CreatePost flatEnv [] (POST "/posts" selfieBody)).1.store.m = userH.store.m) :=
  C9_create_frame flatEnv userH (POST "/users" sevenFirst) (POST "/posts" selfieBody)
    ⟨"7", "first", "", ""⟩ selfie rfl rfl

/-! ## C10: only Create mutates the store -/

/-- C10: a request that is not a Create (on either collection) with a body that
decodes leaves the handler, and so its store, as it was; `List`, `ListPost`, `Get`
and `GetPost` do so on every request. -/
theorem C10_only_create_mutates (E : Env) (h : userHandler) (r : Request)
    (hu : ¬ (isCreate r ∧ ∃ u, E.Decode_user r.Body = Except.ok u))
    (hp : ¬ (isCreatePost r ∧ ∃ p, E.Decode_post r.Body = Except.ok p)) :
    (h.ServeHTTP E [] r).1 = h ∧
    (∀ (w : ResponseWriter) (q : Request),
      (h.List w q).1 = h ∧ (h.ListPost E w q).1 = h ∧
      (h.Get w q).1 = h ∧ (h.GetPost w q).1 = h) := by
  refine ⟨?_, fun w q =>
    ⟨list_store h w q, listPost_store E h w q, get_store h w q, getPost_store h w q⟩⟩
  rw [serve_unfold]
  dsimp only
  split_ifs with c1 c2 c3 c4 c5 c6
  · exact list_store _ _ _
  · exact get_store _ _ _
  · cases hd : E.Decode_user r.Body with
    | error e => rw [create_error E h _ r e hd]
    | ok u => exact absurd ⟨c3, u, hd⟩ hu
  · exact listPost_store _ _ _ _
  · exact getPost_store _ _ _
  · cases hd : E.Decode_post r.Body with
    | error e => rw [createPost_error E h _ r e hd]
    | ok p => exact absurd ⟨c6, p, hd⟩ hp
  · rfl

/-- C10, at concrete requests on the store holding user 1: a GET of a user, and a
POST whose body is an array. -/
theorem C10_only_create_mutates_witness :
    ((userH.ServeHTTP flatEnv [] (GET "/users/1")).1 = userH ∧
      (∀ (w : ResponseWriter) (q : Request),
        (userH.List w q).1 = userH ∧ (userH.ListPost flatEnv w q).1 = userH ∧
        (userH.Get w q).1 = userH ∧ (userH.GetPost w q).1 = userH)) ∧
    (userH.ServeHTTP flatEnv [] (POST "/users" arrayBody)).1 = userH :=
  ⟨C10_only_create_mutates flatEnv userH (GET "/users/1")
      (fun c => absurd c.1.1 (by decide)) (fun c => absurd c.1.1 (by decide)),
    (C10_only_create_mutates flatEnv userH (POST "/users" arrayBody)
      (fun c => by
        obtain ⟨_, u, hu⟩ := c
        have he : flatEnv.Decode_user (POST "/users" arrayBody).Body
            = Except.error "json: cannot decode" := rfl
        rw [he] at hu
        exact Except.noConfusion hu)
      (fun c => absurd c.1.2 (by decide))).1⟩

/-! ## C11: what List and ListPost return -/

theorem posts_le (E : Env) (h : userHandler) :
    userHandler.ListPost.posts E h = [] ∨
      (userHandler.ListPost.posts E h).length = E.users.length + 1 := by
  unfold userHandler.ListPost.posts
  induction h.store.m_post.entries using List.reverseRecOn with
  | nil => exact Or.inl rfl
  | append_singleton l x _ =>
    right
    rw [List.foldl_append]
    simp

/-- C11 (what the code does): GET `/users` responds 200 with the encoding of the
slice holding the user of each key once, and the empty store gives `[]` on both
list routes; but whatever slice the undeclared `users` of line 93 stands for, there
is a store whose records `ListPost` does not return, and in the store holding the
two posts created by POST `/posts`, GET `/posts` returns the array of one of them. -/
theorem C11_listPost_drops_records :
    (∀ (E : Env) (h : userHandler),
      (h.ServeHTTP E [] (GET "/users")).2.status = some StatusOK ∧
      json.Marshal_slice json.Marshal_user (userRecords h)
        = Except.ok (h.ServeHTTP E [] (GET "/users")).2.body) ∧
    (∀ E : Env,
      (emptyH.ServeHTTP E [] (GET "/users")).2.body = "[]" ∧
      (emptyH.ServeHTTP E [] (GET "/posts")).2.status = some StatusOK ∧
      (emptyH.ServeHTTP E [] (GET "/posts")).2.body = "[]") ∧
    (∀ E : Env, ∃ h : userHandler,
      ¬ (userHandler.ListPost.posts E h).Perm (postRecords h)) ∧
    ((run flatEnv emptyH [POST "/posts" selfieBody, POST "/posts" dinnerBody]).store.m_post.lookup
        "1" = some selfie ∧
      (run flatEnv emptyH [POST "/posts" selfieBody, POST "/posts" dinnerBody]).store.m_post.lookup
        "2" = some dinner ∧
      ((run flatEnv emptyH [POST "/posts" selfieBody, POST "/posts" dinnerBody]).ServeHTTP
        flatEnv [] (GET "/posts")).2.status = some StatusOK ∧
      ((run flatEnv emptyH [POST "/posts" selfieBody, POST "/posts" dinnerBody]).ServeHTTP
        flatEnv [] (GET "/posts")).2.body = "[" ++ selfieBody ++ "]") := by
  refine ⟨?_, ?_, ?_, ⟨by rfl, by rfl, by rfl, by rfl⟩⟩
  · intro E h
    rw [serve_list E h [] (GET "/users") rfl rfl]
    obtain ⟨body, hm, hb⟩ := list_response h (ResponseWriter.HeaderSet []
      "content-type" "application/json") (GET "/users")
    rw [users_eq_map] at hm
    rw [hb]
    refine ⟨status_writeHeader _ _ _ (status_headerSet _ _), ?_⟩
    rw [body_writeHeader, body_headerSet, String.empty_append]
    exact hm
  · intro E
    exact ⟨by rfl, by rfl, by rfl⟩
  · intro E
    rcases hu : E.users with _ | ⟨x, xs⟩
    · refine ⟨twoH, fun hp => ?_⟩
      have hl := hp.length_eq
      have h2 : (postRecords twoH).length = 2 := rfl
      rw [h2] at hl
      rcases posts_le E twoH with h0 | h1
      · rw [h0] at hl; exact absurd hl (by decide)
      · rw [h1, hu] at hl; exact absurd hl (by decide)
    · refine ⟨postH, fun hp => ?_⟩
      have hl := hp.length_eq
      have hposts : userHandler.ListPost.posts E postH = E.users ++ [selfie] := rfl
      rw [hposts, hu] at hl
      simp [postRecords, postH] at hl

/-! ## C12 and C13: the calls made on the response writer -/

theorem list_shape (M : Marshal) (h : userHandler) (w : ResponseWriter) (r : Request) :
    ∃ c body, (h.List_with M w r).2 = (w.WriteHeader c).Write body ∧
      (c = StatusOK → serializedBy M body) := by
  unfold userHandler.List_with
  dsimp only
  cases hM : M.ofUsers (userHandler.List.users h) with
  | error e =>
    exact ⟨StatusInternalServerError, "internal server error", rfl,
      fun c => absurd c (by decide)⟩
  | ok s => exact ⟨StatusOK, s, rfl, fun _ => Or.inr (Or.inr (Or.inl ⟨_, hM⟩))⟩

theorem listPost_shape (M : Marshal) (E : Env) (h : userHandler) (w : ResponseWriter)
    (r : Request) :
    ∃ c body, (h.ListPost_with M E w r).2 = (w.WriteHeader c).Write body ∧
      (c = StatusOK → serializedBy M body) := by
  unfold userHandler.ListPost_with
  dsimp only
  cases hM : M.ofPosts (userHandler.ListPost.posts E h) with
  | error e =>
    exact ⟨StatusInternalServerError, "internal server error", rfl,
      fun c => absurd c (by decide)⟩
  | ok s => exact ⟨StatusOK, s, rfl, fun _ => Or.inr (Or.inr (Or.inr ⟨_, hM⟩))⟩

theorem get_shape (M : Marshal) (h : userHandler) (w : ResponseWriter) (r : Request) :
    ∃ c body, (h.Get_with M w r).2 = (w.WriteHeader c).Write body ∧
      (c = StatusOK → serializedBy M body) := by
  unfold userHandler.Get_with
  dsimp only
  split
  · exact ⟨StatusNotFound, "not found", rfl, fun e => absurd e (by decide)⟩
  · split
    · exact ⟨StatusNotFound, "user not found", rfl, fun e => absurd e (by decide)⟩
    · rename_i u _
      cases hM : M.ofUser u with
      | error e =>
        exact ⟨StatusInternalServerError, "internal server error", rfl,
          fun c => absurd c (by decide)⟩
      | ok s => exact ⟨StatusOK, s, rfl, fun _ => Or.inl ⟨u, hM⟩⟩

theorem getPost_shape (M : Marshal) (h : userHandler) (w : ResponseWriter) (r : Request) :
    ∃ c body, (h.GetPost_with M w r).2 = (w.WriteHeader c).Write body ∧
      (c = StatusOK → serializedBy M body) := by
  unfold userHandler.GetPost_with
  dsimp only
  split
  · exact ⟨StatusNotFound, "not found", rfl, fun e => absurd e (by decide)⟩
  · split
    · exact ⟨StatusNotFound, "post not found", rfl, fun e => absurd e (by decide)⟩
    · rename_i u _
      cases hM : M.ofPost u with
      | error e =>
        exact ⟨StatusInternalServerError, "internal server error", rfl,
          fun c => absurd c (by decide)⟩
      | ok s => exact ⟨StatusOK, s, rfl, fun _ => Or.inr (Or.inl ⟨u, hM⟩)⟩

theorem create_shape (M : Marshal) (E : Env) (h : userHandler) (w : ResponseWriter)
    (r : Request) :
    ∃ c body, (h.Create_with M E w r).2 = (w.WriteHeader c).Write body ∧
      (c = StatusOK → serializedBy M body) := by
  unfold userHandler.Create_with
  cases hd : E.Decode_user r.Body with
  | error e =>
    exact ⟨StatusInternalServerError, "internal server error", rfl,
      fun e => absurd e (by decide)⟩
  | ok u =>
    dsimp only
    cases hM : M.ofUser u with
    | error e =>
      exact ⟨StatusInternalServerError, "internal server error", rfl,
        fun c => absurd c (by decide)⟩
    | ok s => exact ⟨StatusOK, s, rfl, fun _ => Or.inl ⟨u, hM⟩⟩

theorem createPost_shape (M : Marshal) (E : Env) (h : userHandler) (w : ResponseWriter)
    (r : Request) :
    ∃ c body, (h.CreatePost_with M E w r).2 = (w.WriteHeader c).Write body ∧
      (c = StatusOK → serializedBy M body) := by
  unfold userHandler.CreatePost_with
  cases hd : E.Decode_post r.Body with
  | error e =>
    exact ⟨StatusInternalServerError, "internal server error", rfl,
      fun e => absurd e (by decide)⟩
  | ok p =>
    dsimp only
    cases hM : M.ofPost p with
    | error e =>
      exact ⟨StatusInternalServerError, "internal server error", rfl,
        fun c => absurd c (by decide)⟩
    | ok s => exact ⟨StatusOK, s, rfl, fun _ => Or.inr (Or.inl ⟨p, hM⟩)⟩

theorem serve_shape (M : Marshal) (E : Env) (h : userHandler) (r : Request) :
    ∃ c body, (h.ServeHTTP_with M E [] r).2
        = [Call.HeaderSet "content-type" "application/json", Call.WriteHeader c,
            Call.Write body] ∧
      (c = StatusOK → serializedBy M body) := by
  have key : ∃ c body, (h.ServeHTTP_with M E [] r).2
      = ((ResponseWriter.HeaderSet [] "content-type" "application/json").WriteHeader c).Write
          body ∧ (c = StatusOK → serializedBy M body) := by
    unfold userHandler.ServeHTTP_with
    dsimp only
    split_ifs
    · exact list_shape _ _ _ _
    · exact get_shape _ _ _ _
    · exact create_shape _ _ _ _ _
    · exact listPost_shape _ _ _ _ _
    · exact getPost_shape _ _ _ _
    · exact createPost_shape _ _ _ _ _
    · exact ⟨StatusNotFound, "not found", rfl, fun e => absurd e (by decide)⟩
  obtain ⟨c, body, hc, hs⟩ := key
  exact ⟨c, body, by rw [hc]; rfl, hs⟩

/-- C12: whatever `json.Marshal` returns, also when it returns an error, the handler
calls `WriteHeader` exactly once for a request; a response whose status is 500 has no
`WriteHeader(200)` among its calls; and when 200 is written, the only call after it
writes a body that `json.Marshal` returned without error. The program is the
handler at the `json.Marshal` of the library. -/
theorem C12_one_status_line (M : Marshal) (E : Env) (h : userHandler) (r : Request) :
    (∃ c, (h.ServeHTTP_with M E [] r).2.statusLines = [c]) ∧
    ((h.ServeHTTP_with M E [] r).2.status = some StatusInternalServerError →
      StatusOK ∉ (h.ServeHTTP_with M E [] r).2.statusLines) ∧
    (StatusOK ∈ (h.ServeHTTP_with M E [] r).2.statusLines →
      ∃ body, serializedBy M body ∧
        (h.ServeHTTP_with M E [] r).2
          = [Call.HeaderSet "content-type" "application/json", Call.WriteHeader StatusOK,
              Call.Write body]) ∧
    h.ServeHTTP E [] r = h.ServeHTTP_with json.Marshal E [] r := by
  obtain ⟨c, body, hc, hs⟩ := serve_shape M E h r
  rw [hc]
  refine ⟨⟨c, rfl⟩, ?_, ?_, rfl⟩
  · intro h500 hmem
    have h1 : c = StatusInternalServerError := by
      simpa [ResponseWriter.status] using h500
    have h2 : StatusOK = c := by
      simpa [ResponseWriter.statusLines] using hmem
    rw [h1] at h2
    exact absurd h2 (by decide)
  · intro hmem
    have h2 : StatusOK = c := by
      simpa [ResponseWriter.statusLines] using hmem
    subst h2
    exact ⟨body, hs rfl, rfl⟩

/-- C13: for every request and store, the header map sent to the client is exactly
`content-type: application/json`, and the call that sets it is the first call on the
response writer, followed only by one `WriteHeader` and one `Write`. -/
theorem C13_content_type (E : Env) (h : userHandler) (r : Request) :
    (h.ServeHTTP E [] r).2.sent [] = some [("content-type", "application/json")] ∧
    ∃ c body, (h.ServeHTTP E [] r).2
      = [Call.HeaderSet "content-type" "application/json", Call.WriteHeader c,
          Call.Write body] := by
  obtain ⟨c, body, hc, _⟩ := serve_shape json.Marshal E h r
  have hc2 : (h.ServeHTTP E [] r).2
      = [Call.HeaderSet "content-type" "application/json", Call.WriteHeader c,
          Call.Write body] := hc
  rw [hc2]
  exact ⟨rfl, c, body, rfl⟩

/-- C12, at concrete requests on the store holding user 1. With a `json.Marshal`
that returns an error, GET `/users/1` and POST `/users` of a body that decodes are
answered by the single status line 500, and no 200 is written. With the
`json.Marshal` of the library, GET `/users/1` is answered by the single status line
200 followed by the encoding of bob. -/
theorem C12_one_status_line_witness :
    ((userH.ServeHTTP_with failingMarshal flatEnv [] (GET "/users/1")).2.statusLines
        = [StatusInternalServerError] ∧
      StatusOK ∉ (userH.ServeHTTP_with failingMarshal flatEnv []
        (GET "/users/1")).2.statusLines) ∧
    ((userH.ServeHTTP_with failingMarshal flatEnv [] (POST "/users" bobBody)).2.statusLines
        = [StatusInternalServerError] ∧
      StatusOK ∉ (userH.ServeHTTP_with failingMarshal flatEnv []
        (POST "/users" bobBody)).2.statusLines) ∧
    ∃ body, serializedBy json.Marshal body ∧
      (userH.ServeHTTP_with json.Marshal flatEnv [] (GET "/users/1")).2
        = [Call.HeaderSet "content-type" "application/json", Call.WriteHeader StatusOK,
            Call.Write body] :=
  ⟨⟨by rfl, (C12_one_status_line failingMarshal flatEnv userH (GET "/users/1")).2.1 (by rfl)⟩,
    ⟨by rfl,
      (C12_one_status_line failingMarshal flatEnv userH (POST "/users" bobBody)).2.1
        (by rfl)⟩,
    (C12_one_status_line json.Marshal flatEnv userH (GET "/users/1")).2.2.1
      (by
        have hs : (userH.ServeHTTP_with json.Marshal flatEnv [] (GET "/users/1")).2.statusLines
            = [StatusOK] := by rfl
        rw [hs]
        exact List.mem_singleton.2 rfl)⟩

/-! ## C16: other methods, and POST on an item path -/

theorem posts_pattern_on_users (id : String) :
    createPostrRe.MatchString ("/users/" ++ id) = false := by
  have hd : dropLit "/posts".data ("/users/" ++ id).data = none := rfl
  simp only [createPostrRe, Regexp.MatchString, hd]

theorem users_pattern_on_posts_path (id : String) :
    createUserRe.MatchString ("/posts/" ++ id) = false := by
  have hd : dropLit "/users".data ("/posts/" ++ id).data = none := rfl
  simp only [createUserRe, Regexp.MatchString, hd]

theorem serve_notFound (E : Env) (h : userHandler) (r : Request)
    (hg : ¬ (r.Method = MethodGet))
    (hp : ¬ (r.Method = MethodPost ∧ createUserRe.MatchString r.URL.Path = true))
    (hq : ¬ (r.Method = MethodPost ∧ createPostrRe.MatchString r.URL.Path = true)) :
    h.ServeHTTP E [] r
      = (h, notFound (ResponseWriter.HeaderSet [] "content-type" "application/json") r) := by
  rw [serve_unfold]
  dsimp only
  rw [if_neg (fun c => hg c.1), if_neg (fun c => hg c.1), if_neg hp,
    if_neg (fun c => hg c.1), if_neg (fun c => hg c.1), if_neg hq]

/-- C16: a request whose method is neither GET nor POST is answered 404 with the
body `not found`, whatever its path; and so is a POST on `/users/<digits>` and on
`/posts/<digits>`. -/
theorem C16_other_methods (E : Env) (h : userHandler) (r : Request) (id body : String)
    (hg : r.Method ≠ MethodGet) (hp : r.Method ≠ MethodPost) (hid : allDigits id = true) :
    ((h.ServeHTTP E [] r).2.status = some StatusNotFound ∧
      (h.ServeHTTP E [] r).2.body = "not found") ∧
    ((h.ServeHTTP E [] (POST ("/users/" ++ id) body)).2.status = some StatusNotFound ∧
      (h.ServeHTTP E [] (POST ("/users/" ++ id) body)).2.body = "not found") ∧
    ((h.ServeHTTP E [] (POST ("/posts/" ++ id) body)).2.status = some StatusNotFound ∧
      (h.ServeHTTP E [] (POST ("/posts/" ++ id) body)).2.body = "not found") := by
  have hpost : ¬ (MethodPost = MethodGet) := by decide
  have hu1 : createUserRe.MatchString ("/users/" ++ id) = false :=
    collection_no_item "/users" id hid
  have hu2 := posts_pattern_on_users id
  have hp1 := users_pattern_on_posts_path id
  have hp2 : createPostrRe.MatchString ("/posts/" ++ id) = false :=
    collection_no_item "/posts" id hid
  rw [serve_notFound E h r hg (fun c => hp c.1) (fun c => hp c.1),
    serve_notFound E h (POST ("/users/" ++ id) body) hpost
      (fun c => by rw [show (POST ("/users/" ++ id) body).URL.Path = "/users/" ++ id from rfl,
        hu1] at c; exact absurd c.2 (by decide))
      (fun c => by rw [show (POST ("/users/" ++ id) body).URL.Path = "/users/" ++ id from rfl,
        hu2] at c; exact absurd c.2 (by decide)),
    serve_notFound E h (POST ("/posts/" ++ id) body) hpost
      (fun c => by rw [show (POST ("/posts/" ++ id) body).URL.Path = "/posts/" ++ id from rfl,
        hp1] at c; exact absurd c.2 (by decide))
      (fun c => by rw [show (POST ("/posts/" ++ id) body).URL.Path = "/posts/" ++ id from rfl,
        hp2] at c; exact absurd c.2 (by decide))]
  exact ⟨⟨rfl, rfl⟩, ⟨rfl, rfl⟩, ⟨rfl, rfl⟩⟩

/-- C16, at concrete requests on the store holding user 1: DELETE `/users/1`, and
POST on `/users/1` and `/posts/1`. -/
theorem C16_other_methods_witness :
    ((userH.ServeHTTP flatEnv [] ⟨"DELETE", ⟨"/users/1"⟩, ""⟩).2.status
        = some StatusNotFound ∧
      (userH.ServeHTTP flatEnv [] ⟨"DELETE", ⟨"/users/1"⟩, ""⟩).2.body = "not found") ∧
    ((userH.ServeHTTP flatEnv [] (POST ("/users/" ++ "1") bobBody)).2.status
        = some StatusNotFound ∧
      (userH.ServeHTTP flatEnv [] (POST ("/users/" ++ "1") bobBody)).2.body = "not found") ∧
    ((userH.ServeHTTP flatEnv [] (POST ("/posts/" ++ "1") bobBody)).2.status
        = some StatusNotFound ∧
      (userH.ServeHTTP flatEnv [] (POST ("/posts/" ++ "1") bobBody)).2.body = "not found") :=
  C16_other_methods flatEnv userH ⟨"DELETE", ⟨"/users/1"⟩, ""⟩ "1" bobBody
    (by decide) (by decide) (by decide)

/-! ## C17: when the status is 500 -/

theorem list_status (h : userHandler) (r : Request) :
    (h.List (ResponseWriter.HeaderSet [] "content-type" "application/json") r).2.status
      = some StatusOK := by
  obtain ⟨body, _, hb⟩ := list_response h
    (ResponseWriter.HeaderSet [] "content-type" "application/json") r
  rw [hb]; rfl

theorem listPost_status (E : Env) (h : userHandler) (r : Request) :
    (h.ListPost E (ResponseWriter.HeaderSet [] "content-type" "application/json") r).2.status
      = some StatusOK := by
  obtain ⟨s, hs⟩ := marshal_posts_ok (userHandler.ListPost.posts E h)
  simp only [userHandler.ListPost, userHandler.ListPost_with, hs]
  rfl

theorem get_status (h : userHandler) (r : Request) :
    (h.Get (ResponseWriter.HeaderSet [] "content-type" "application/json") r).2.status
      ≠ some StatusInternalServerError := by
  unfold userHandler.Get userHandler.Get_with
  dsimp only
  split
  · exact fun c => absurd (Option.some.inj c) (by decide)
  · split
    · exact fun c => absurd (Option.some.inj c) (by decide)
    · rename_i u _
      obtain ⟨s, hs⟩ := marshal_user_ok u
      rw [hs]
      exact fun c => absurd (Option.some.inj c) (by decide)

theorem getPost_status (h : userHandler) (r : Request) :
    (h.GetPost (ResponseWriter.HeaderSet [] "content-type" "application/json") r).2.status
      ≠ some StatusInternalServerError := by
  unfold userHandler.GetPost userHandler.GetPost_with
  dsimp only
  split
  · exact fun c => absurd (Option.some.inj c) (by decide)
  · split
    · exact fun c => absurd (Option.some.inj c) (by decide)
    · rename_i u _
      obtain ⟨s, hs⟩ := marshal_post_ok u
      rw [hs]
      exact fun c => absurd (Option.some.inj c) (by decide)

/-- C17: the status is 500 exactly when the request is a POST on a collection path
(`/users[/]*`, handled by `Create`, or `/posts[/]*`, handled by `CreatePost`) whose
body does not decode; and `json.Marshal` returns no error on any user, post, slice
of users or slice of posts, so the branches that answer 500 after a failed `json.Marshal` are never
taken. -/
theorem C17_status_500 (E : Env) (h : userHandler) (r : Request) :
    ((h.ServeHTTP E [] r).2.status = some StatusInternalServerError ↔
      (isCreate r ∧ ∃ e, E.Decode_user r.Body = Except.error e) ∨
      (isCreatePost r ∧ ∃ e, E.Decode_post r.Body = Except.error e)) ∧
    (∀ u : user, ∃ s, json.Marshal.ofUser u = Except.ok s) ∧
    (∀ p : post, ∃ s, json.Marshal.ofPost p = Except.ok s) ∧
    (∀ us : Slice user, ∃ s, json.Marshal.ofUsers us = Except.ok s) ∧
    (∀ ps : Slice post, ∃ s, json.Marshal.ofPosts ps = Except.ok s) := by
  refine ⟨⟨?_, ?_⟩, marshal_user_ok, marshal_post_ok, marshal_users_ok, marshal_posts_ok⟩
  · intro hs
    rw [serve_unfold] at hs
    dsimp only at hs
    split_ifs at hs with c1 c2 c3 c4 c5 c6
    · rw [list_status] at hs; exact absurd (Option.some.inj hs) (by decide)
    · exact absurd hs (get_status h r)
    · cases hd : E.Decode_user r.Body with
      | error e => exact Or.inl ⟨c3, e, rfl⟩
      | ok u =>
        rw [create_ok E h _ r u hd] at hs
        exact absurd (Option.some.inj hs) (by decide)
    · rw [listPost_status] at hs; exact absurd (Option.some.inj hs) (by decide)
    · exact absurd hs (getPost_status h r)
    · cases hd : E.Decode_post r.Body with
      | error e => exact Or.inr ⟨c6, e, rfl⟩
      | ok p =>
        rw [createPost_ok E h _ r p hd] at hs
        exact absurd (Option.some.inj hs) (by decide)
    · exact absurd (Option.some.inj hs) (by decide)
  · rintro (⟨hc, e, he⟩ | ⟨hc, e, he⟩)
    · rw [serve_create E h [] r hc, create_error E h _ r e he]; rfl
    · rw [serve_createPost E h [] r hc, createPost_error E h _ r e he]; rfl

/-! ## C15: the route patterns are exclusive -/

theorem collection_match (lit p : String) :
    (Regexp.collection lit).MatchString p = true ↔
      ∃ rest, p.data = lit.data ++ rest ∧ ∀ c ∈ rest, c = '/' := by
  simp only [Regexp.MatchString]
  cases hd : dropLit lit.data p.data with
  | none =>
    constructor
    · intro hf; exact absurd hf (by simp)
    · rintro ⟨rest, hp, _⟩
      rw [(dropLit_eq_some _ _ _).2 hp] at hd
      exact absurd hd (by simp)
  | some rest =>
    have hp := (dropLit_eq_some _ _ _).1 hd
    constructor
    · intro hall
      exact ⟨rest, hp, by simpa using hall⟩
    · rintro ⟨rest1, hp1, hall⟩
      have he : rest = rest1 := List.append_cancel_left (hp.symm.trans hp1)
      subst he
      simpa using hall

theorem item_match (lit p : String) :
    (Regexp.item lit).MatchString p = true ↔
      ∃ rest, p.data = lit.data ++ rest ∧ rest ≠ [] ∧ ∀ c ∈ rest, isDigit c = true := by
  simp only [Regexp.MatchString]
  cases hd : dropLit lit.data p.data with
  | none =>
    constructor
    · intro hf; exact absurd hf (by simp)
    · rintro ⟨rest, hp, _⟩
      rw [(dropLit_eq_some _ _ _).2 hp] at hd
      exact absurd hd (by simp)
  | some rest =>
    have hp := (dropLit_eq_some _ _ _).1 hd
    constructor
    · intro hall
      simp only [Bool.and_eq_true, Bool.not_eq_true', List.isEmpty_eq_false,
        List.all_eq_true] at hall
      exact ⟨rest, hp, hall.1, hall.2⟩
    · rintro ⟨rest1, hp1, hne, hall⟩
      have he : rest = rest1 := List.append_cancel_left (hp.symm.trans hp1)
      subst he
      simp only [Bool.and_eq_true, Bool.not_eq_true', List.isEmpty_eq_false,
        List.all_eq_true]
      exact ⟨hne, hall⟩

theorem collection_item_exclusive (lit p : String) :
    ¬ ((Regexp.collection lit).MatchString p = true ∧
        (Regexp.item (lit ++ "/")).MatchString p = true) := by
  rintro ⟨hc, hi⟩
  obtain ⟨r1, hp1, hall1⟩ := (collection_match lit p).1 hc
  obtain ⟨r2, hp2, hne, hall2⟩ := (item_match (lit ++ "/") p).1 hi
  have he : r1 = '/' :: r2 := by
    have h3 : lit.data ++ r1 = lit.data ++ ('/' :: r2) := by
      rw [← hp1, hp2]
      simp [String.data_append]
    exact List.append_cancel_left h3
  cases r2 with
  | nil => exact hne rfl
  | cons c cs =>
    have hd : isDigit c = true := hall2 c (List.mem_cons_self c cs)
    have hs : c = '/' := hall1 c (by rw [he]; simp)
    exact isDigit_ne_slash c hd hs

theorem users_posts_exclusive (p : String) (a b : List Char) (r1 r2 : List Char)
    (h1 : p.data = '/' :: 'u' :: a ++ r1) (h2 : p.data = '/' :: 'p' :: b ++ r2) : False := by
  rw [h1] at h2
  simp at h2

theorem patterns_exclusive (p : String) :
    ¬ (listUserRe.MatchString p = true ∧ getUserRe.MatchString p = true) ∧
    ¬ (listUserRe.MatchString p = true ∧ listPostRe.MatchString p = true) ∧
    ¬ (listUserRe.MatchString p = true ∧ getPostRe.MatchString p = true) ∧
    ¬ (getUserRe.MatchString p = true ∧ listPostRe.MatchString p = true) ∧
    ¬ (getUserRe.MatchString p = true ∧ getPostRe.MatchString p = true) ∧
    ¬ (listPostRe.MatchString p = true ∧ getPostRe.MatchString p = true) := by
  refine ⟨collection_item_exclusive "/users" p, ?_, ?_, ?_, ?_,
    collection_item_exclusive "/posts" p⟩
  · rintro ⟨h1, h2⟩
    obtain ⟨r1, hp1, _⟩ := (collection_match _ p).1 h1
    obtain ⟨r2, hp2, _⟩ := (collection_match _ p).1 h2
    exact users_posts_exclusive p ['s', 'e', 'r', 's'] ['o', 's', 't', 's'] r1 r2 hp1 hp2
  · rintro ⟨h1, h2⟩
    obtain ⟨r1, hp1, _⟩ := (collection_match _ p).1 h1
    obtain ⟨r2, hp2, _⟩ := (item_match _ p).1 h2
    exact users_posts_exclusive p ['s', 'e', 'r', 's'] ['o', 's', 't', 's', '/'] r1 r2 hp1 hp2
  · rintro ⟨h1, h2⟩
    obtain ⟨r1, hp1, _⟩ := (item_match _ p).1 h1
    obtain ⟨r2, hp2, _⟩ := (collection_match _ p).1 h2
    exact users_posts_exclusive p ['s', 'e', 'r', 's', '/'] ['o', 's', 't', 's'] r1 r2 hp1 hp2
  · rintro ⟨h1, h2⟩
    obtain ⟨r1, hp1, _⟩ := (item_match _ p).1 h1
    obtain ⟨r2, hp2, _⟩ := (item_match _ p).1 h2
    exact users_posts_exclusive p ['s', 'e', 'r', 's', '/'] ['o', 's', 't', 's', '/'] r1 r2
      hp1 hp2

theorem find_perm {α β : Type} (p : α → Bool) (f : α → β) (l l1 : List α)
    (hperm : l1.Perm l)
    (huniq : ∀ a ∈ l, ∀ b ∈ l, p a = true → p b = true → f a = f b) :
    (l1.find? p).map f = (l.find? p).map f := by
  cases h1 : l1.find? p with
  | none =>
    have hn : ∀ x ∈ l, ¬ (p x = true) := fun x hx =>
      (List.find?_eq_none.1 h1) x (hperm.mem_iff.2 hx)
    rw [List.find?_eq_none.2 hn]
  | some a =>
    have ha : p a = true := List.find?_some h1
    have hal : a ∈ l := hperm.mem_iff.1 (List.mem_of_find?_eq_some h1)
    cases h2 : l.find? p with
    | none => exact absurd ha ((List.find?_eq_none.1 h2) a hal)
    | some b =>
      have hb : p b = true := List.find?_some h2
      have hbl : b ∈ l := List.mem_of_find?_eq_some h2
      simp only [Option.map_some']
      rw [huniq a hal b hbl ha hb]

theorem routes_unique (r : Request) :
    ∀ a ∈ routes, ∀ b ∈ routes, routeMatches r a = true → routeMatches r b = true →
      a.2.2 = b.2.2 := by
  obtain ⟨e1, e2, e3, e4, e5, e6⟩ := patterns_exclusive r.URL.Path
  intro a ha b hb h1 h2
  simp only [routes, List.mem_cons, List.mem_singleton, List.not_mem_nil, or_false] at ha hb
  simp only [routeMatches, Bool.and_eq_true, decide_eq_true_eq] at h1 h2
  obtain ⟨hm1, hp1⟩ := h1
  obtain ⟨hm2, hp2⟩ := h2
  rcases ha with rfl | rfl | rfl | rfl | rfl | rfl <;>
  rcases hb with rfl | rfl | rfl | rfl | rfl | rfl <;>
  first
  | rfl
  | exact absurd (hm1.symm.trans hm2) (by decide)
  | exact (e1 (And.intro hp1 hp2)).elim
  | exact (e1 (And.intro hp2 hp1)).elim
  | exact (e2 (And.intro hp1 hp2)).elim
  | exact (e2 (And.intro hp2 hp1)).elim
  | exact (e3 (And.intro hp1 hp2)).elim
  | exact (e3 (And.intro hp2 hp1)).elim
  | exact (e4 (And.intro hp1 hp2)).elim
  | exact (e4 (And.intro hp2 hp1)).elim
  | exact (e5 (And.intro hp1 hp2)).elim
  | exact (e5 (And.intro hp2 hp1)).elim
  | exact (e6 (And.intro hp1 hp2)).elim
  | exact (e6 (And.intro hp2 hp1)).elim

theorem choose_eq (table : List (String × Regexp × Action)) (r : Request) :
    choose table r
      = ((table.find? (routeMatches r)).map (fun c => c.2.2)).getD Action.notFound := by
  unfold choose
  cases table.find? (routeMatches r) <;> rfl

theorem serve_perform (E : Env) (h : userHandler) (w : ResponseWriter) (r : Request) :
    h.ServeHTTP E w r
      = perform E h (w.HeaderSet "content-type" "application/json") r (choose routes r) := by
  have hc : ∀ (m : String) (re : Regexp) (a : Action),
      (r.Method = m ∧ re.MatchString r.URL.Path = true) ↔ routeMatches r (m, re, a) = true := by
    intro m re a
    simp [routeMatches]
  rw [serve_unfold]
  dsimp only
  simp only [hc MethodGet listUserRe Action.list, hc MethodGet getUserRe Action.get,
    hc MethodPost createUserRe Action.create, hc MethodGet listPostRe Action.listPost,
    hc MethodGet getPostRe Action.getPost, hc MethodPost createPostrRe Action.createPost]
  unfold choose routes
  simp only [List.find?]
  cases routeMatches r (MethodGet, listUserRe, Action.list)
  · cases routeMatches r (MethodGet, getUserRe, Action.get)
    · cases routeMatches r (MethodPost, createUserRe, Action.create)
      · cases routeMatches r (MethodGet, listPostRe, Action.listPost)
        · cases routeMatches r (MethodGet, getPostRe, Action.getPost)
          · cases routeMatches r (MethodPost, createPostrRe, Action.createPost) <;> rfl
          · rfl
        · rfl
      · rfl
    · rfl
  · rfl

/-- C15: no path matches two of the four patterns, so the cases of the `switch` are
exclusive: tried in any order, they pick the same handler for a request, and that
handler is the one `ServeHTTP` calls. -/
theorem C15_routes_do_not_shadow (E : Env) (h : userHandler) (w : ResponseWriter)
    (r : Request) (table : List (String × Regexp × Action)) (hperm : table.Perm routes) :
    (¬ (listUserRe.MatchString r.URL.Path = true ∧ getUserRe.MatchString r.URL.Path = true) ∧
      ¬ (listUserRe.MatchString r.URL.Path = true ∧
          listPostRe.MatchString r.URL.Path = true) ∧
      ¬ (listUserRe.MatchString r.URL.Path = true ∧ getPostRe.MatchString r.URL.Path = true) ∧
      ¬ (getUserRe.MatchString r.URL.Path = true ∧ listPostRe.MatchString r.URL.Path = true) ∧
      ¬ (getUserRe.MatchString r.URL.Path = true ∧ getPostRe.MatchString r.URL.Path = true) ∧
      ¬ (listPostRe.MatchString r.URL.Path = true ∧
          getPostRe.MatchString r.URL.Path = true)) ∧
    choose table r = choose routes r ∧
    h.ServeHTTP E w r
      = perform E h (w.HeaderSet "content-type" "application/json") r (choose table r) := by
  have hch : choose table r = choose routes r := by
    rw [choose_eq, choose_eq,
      find_perm (routeMatches r) (fun c => c.2.2) routes table hperm (routes_unique r)]
  exact ⟨patterns_exclusive r.URL.Path, hch, by rw [hch]; exact serve_perform E h w r⟩

/-- C15, with the cases in reverse order and the request GET `/users/1`: the handler
picked is `Get`, as in source order. -/
theorem C15_routes_do_not_shadow_witness :
    choose routes.reverse (GET "/users/1") = Action.get ∧
    choose routes (GET "/users/1") = Action.get ∧
    userH.ServeHTTP flatEnv [] (GET "/users/1")
      = perform flatEnv userH (ResponseWriter.HeaderSet [] "content-type" "application/json")
          (GET "/users/1") (choose routes.reverse (GET "/users/1")) :=
  ⟨by rfl, by rfl,
    (C15_routes_do_not_shadow flatEnv userH [] (GET "/users/1") routes.reverse
      (List.reverse_perm routes)).2.2⟩

/-! ## C18: Create does not validate the ID -/

theorem collection_on_item_path (lit id : String) :
    (Regexp.collection lit).MatchString (lit ++ "/" ++ id) = allSlashes id := by
  simp only [Regexp.MatchString, String.data_append, List.append_assoc, dropLit_append,
    allSlashes]
  simp

theorem item_on_item_path (lit id : String) :
    (Regexp.item lit).MatchString (lit ++ id) = allDigits id := by
  simp only [Regexp.MatchString, String.data_append, dropLit_append, allDigits]

theorem item_capture_digits (lit path whole seg : String)
    (hf : (Regexp.item lit).FindStringSubmatch path = [whole, seg]) :
    allDigits seg = true := by
  simp only [Regexp.FindStringSubmatch] at hf
  cases hd : dropLit lit.data path.data with
  | none => rw [hd] at hf; simp at hf
  | some rest =>
    rw [hd] at hf
    dsimp only at hf
    split at hf
    · rename_i hc
      have hs : seg = String.mk rest := by
        have := List.cons.inj hf
        have h2 := List.cons.inj this.2
        exact h2.1.symm
      rw [hs]
      exact hc
    · simp at hf

theorem serve_default (E : Env) (h : userHandler) (r : Request)
    (h1 : listUserRe.MatchString r.URL.Path = false)
    (h2 : getUserRe.MatchString r.URL.Path = false)
    (h3 : listPostRe.MatchString r.URL.Path = false)
    (h4 : getPostRe.MatchString r.URL.Path = false) :
    h.ServeHTTP E [] r
      = (h, notFound (ResponseWriter.HeaderSet [] "content-type" "application/json") r) := by
  have h5 : createUserRe.MatchString r.URL.Path = false := h1
  have h6 : createPostrRe.MatchString r.URL.Path = false := h3
  simp [serve_unfold, h1, h2, h3, h4, h5, h6]

theorem users_path_not_posts (id : String) :
    listPostRe.MatchString ("/users/" ++ id) = false ∧
    getPostRe.MatchString ("/users/" ++ id) = false := by
  have hd : dropLit "/posts".data ("/users/" ++ id).data = none := rfl
  have hd2 : dropLit "/posts/".data ("/users/" ++ id).data = none := rfl
  exact ⟨by simp only [listPostRe, Regexp.MatchString, hd],
    by simp only [getPostRe, Regexp.MatchString, hd2]⟩

theorem posts_path_not_users (id : String) :
    listUserRe.MatchString ("/posts/" ++ id) = false ∧
    getUserRe.MatchString ("/posts/" ++ id) = false := by
  have hd : dropLit "/users".data ("/posts/" ++ id).data = none := rfl
  have hd2 : dropLit "/users/".data ("/posts/" ++ id).data = none := rfl
  exact ⟨by simp only [listUserRe, Regexp.MatchString, hd],
    by simp only [getUserRe, Regexp.MatchString, hd2]⟩

theorem mem_users_insert (m : UserMap) (mp : PostMap) (k : String) (v : user) :
    v ∈ userHandler.List.users { store := { m := m.insert k v, m_post := mp } } := by
  rw [users_eq_map]
  show v ∈ List.map _ (m.insert k v).entries
  rw [AList.insert_entries]
  simp

/-- C18 (amended): when the body decodes to a record whose ID is not a non-empty
string of digits, `Create` responds 200 and stores the record under that ID, the
record is in the slice `List` encodes, and the get-by-id pattern never captures that
ID; GET `/users/<ID>` is answered 404 unless the ID is empty or made of `/` only, in
which case the path is a collection path and `List` answers 200 with the array. On
`/posts`, `CreatePost` responds 200 and stores the record, the pattern never captures
the ID, and GET `/posts/<ID>` is answered 404 unless the ID is made of `/` only. -/
theorem C18_unvalidated_id (E : Env) (h : userHandler) (r q : Request) (u : user) (p : post)
    (hr : isCreate r) (hu : E.Decode_user r.Body = Except.ok u)
    (hid : allDigits u.ID = false)
    (hq : isCreatePost q) (hp : E.Decode_post q.Body = Except.ok p)
    (hpid : allDigits p.ID = false) :
    ((h.ServeHTTP E [] r).2.status = some StatusOK ∧
      (h.ServeHTTP E [] r).1.store.m.lookup u.ID = some u ∧
      u ∈ userHandler.List.users (h.ServeHTTP E [] r).1 ∧
      (∀ path whole seg, getUserRe.FindStringSubmatch path = [whole, seg] → seg ≠ u.ID) ∧
      (allSlashes u.ID = false →
        ((h.ServeHTTP E [] r).1.ServeHTTP E [] (GET ("/users/" ++ u.ID))).2.status
          = some StatusNotFound) ∧
      (allSlashes u.ID = true →
        ((h.ServeHTTP E [] r).1.ServeHTTP E [] (GET ("/users/" ++ u.ID))).2.status
          = some StatusOK ∧
        json.Marshal_slice json.Marshal_user (userHandler.List.users (h.ServeHTTP E [] r).1)
          = Except.ok
            ((h.ServeHTTP E [] r).1.ServeHTTP E [] (GET ("/users/" ++ u.ID))).2.body)) ∧
    ((h.ServeHTTP E [] q).2.status = some StatusOK ∧
      (h.ServeHTTP E [] q).1.store.m_post.lookup p.ID = some p ∧
      (∀ path whole seg, getPostRe.FindStringSubmatch path = [whole, seg] → seg ≠ p.ID) ∧
      (allSlashes p.ID = false →
        ((h.ServeHTTP E [] q).1.ServeHTTP E [] (GET ("/posts/" ++ p.ID))).2.status
          = some StatusNotFound)) := by
  rw [serve_create E h [] r hr, create_ok E h _ r u hu,
    serve_createPost E h [] q hq, createPost_ok E h _ q p hp]
  refine ⟨⟨rfl, AList.lookup_insert _, mem_users_insert _ _ _ _, ?_, ?_, ?_⟩,
    ⟨rfl, AList.lookup_insert _, ?_, ?_⟩⟩
  · intro path whole seg hf he
    have hd := item_capture_digits "/users/" path whole seg hf
    rw [he, hid] at hd
    exact absurd hd (by decide)
  · intro hs
    rw [serve_default E _ (GET ("/users/" ++ u.ID))
      ((collection_on_item_path "/users" u.ID).trans hs)
      ((item_on_item_path "/users/" u.ID).trans hid)
      (users_path_not_posts u.ID).1 (users_path_not_posts u.ID).2]
    rfl
  · intro hs
    rw [serve_list E _ [] (GET ("/users/" ++ u.ID)) rfl
      ((collection_on_item_path "/users" u.ID).trans hs)]
    obtain ⟨body, hm, hb⟩ := list_response
      { store := { m := h.store.m.insert u.ID u, m_post := h.store.m_post } }
      (ResponseWriter.HeaderSet [] "content-type" "application/json")
      (GET ("/users/" ++ u.ID))
    rw [hb, hm]
    refine ⟨rfl, ?_⟩
    rw [body_writeHeader, body_headerSet, String.empty_append]
  · intro path whole seg hf he
    have hd := item_capture_digits "/posts/" path whole seg hf
    rw [he, hpid] at hd
    exact absurd hd (by decide)
  · intro hs
    rw [serve_default E _ (GET ("/posts/" ++ p.ID))
      (posts_path_not_users p.ID).1 (posts_path_not_users p.ID).2
      ((collection_on_item_path "/posts" p.ID).trans hs)
      ((item_on_item_path "/posts/" p.ID).trans hpid)]
    rfl

/-- C18, at concrete requests on the empty store: a user and a post with the ID
`abc` are created with 200, and GET `/users/abc` and GET `/posts/abc` answer 404. -/
theorem C18_unvalidated_id_witness :
    ((emptyH.ServeHTTP flatEnv [] (POST "/users" abcFirst)).2.status = some StatusOK ∧
      (emptyH.ServeHTTP flatEnv [] (POST "/users" abcFirst)).1.store.m.lookup "abc"
        = some (⟨"abc", "first", "", ""⟩ : user) ∧
      (⟨"abc", "first", "", ""⟩ : user)
        ∈ userHandler.List.users (emptyH.ServeHTTP flatEnv [] (POST "/users" abcFirst)).1 ∧
      ((emptyH.ServeHTTP flatEnv [] (POST "/users" abcFirst)).1.ServeHTTP flatEnv []
        (GET ("/users/" ++ "abc"))).2.status = some StatusNotFound) ∧
    ((emptyH.ServeHTTP flatEnv [] (POST "/posts" abcPostBody)).2.status = some StatusOK ∧
      ((emptyH.ServeHTTP flatEnv [] (POST "/posts" abcPostBody)).1.ServeHTTP flatEnv []
        (GET ("/posts/" ++ "abc"))).2.status = some StatusNotFound) :=
  have key := C18_unvalidated_id flatEnv emptyH (POST "/users" abcFirst)
    (POST "/posts" abcPostBody) ⟨"abc", "first", "", ""⟩ ⟨"abc", "c", "", ""⟩
    ⟨rfl, rfl⟩ rfl (by decide) ⟨rfl, rfl⟩ rfl (by decide)
  ⟨⟨key.1.1, key.1.2.1, key.1.2.2.1, key.1.2.2.2.2.1 (by decide)⟩,
    ⟨key.2.1, key.2.2.2.2 (by decide)⟩⟩

/-- C18 as stated fails for an ID that is empty or made of `/` only: the user with
no `id` member is created with 200 under the empty ID, and GET `/users/` answers 200
with the array holding it; the user with ID `/` is created with 200, and GET
`/users//` answers 200 with the array holding it. -/
theorem C18_counterexample :
    (allDigits "" = false ∧
      (emptyH.ServeHTTP flatEnv [] (POST "/users" anonBody)).2.status = some StatusOK ∧
      (run flatEnv emptyH [POST "/users" anonBody]).store.m.lookup ""
        = some (⟨"", "anon", "", ""⟩ : user) ∧
      ((run flatEnv emptyH [POST "/users" anonBody]).ServeHTTP flatEnv []
        (GET ("/users/" ++ ""))).2.status = some StatusOK ∧
      ((run flatEnv emptyH [POST "/users" anonBody]).ServeHTTP flatEnv []
        (GET ("/users/" ++ ""))).2.body
        = "[" ++ json.encode_user ⟨"", "anon", "", ""⟩ ++ "]") ∧
    (allDigits "/" = false ∧
      (emptyH.ServeHTTP flatEnv [] (POST "/users" slashBody)).2.status = some StatusOK ∧
      (run flatEnv emptyH [POST "/users" slashBody]).store.m.lookup "/"
        = some (⟨"/", "slash", "", ""⟩ : user) ∧
      ((run flatEnv emptyH [POST "/users" slashBody]).ServeHTTP flatEnv []
        (GET ("/users/" ++ "/"))).2.status = some StatusOK ∧
      ((run flatEnv emptyH [POST "/users" slashBody]).ServeHTTP flatEnv []
        (GET ("/users/" ++ "/"))).2.body
        = "[" ++ json.encode_user ⟨"/", "slash", "", ""⟩ ++ "]") := by
  refine ⟨⟨by rfl, by rfl, by rfl, by rfl, by rfl⟩, ⟨by rfl, by rfl, by rfl, by rfl, by rfl⟩⟩

/-! ## C14: concurrent Create requests -/

theorem move_same (s : World) (i : Nat) (p : Pc) : s.move i p i = p := by
  simp [World.move]

theorem move_other (s : World) (i j : Nat) (p : Pc) (h : j ≠ i) : s.move i p j = s.pc j := by
  simp [World.move, h]

theorem ids_inj (us : List user) (hnd : (us.map (fun u => u.ID)).Nodup) (i j : Nat)
    (u v : user) (hi : us[i]? = some u) (hj : us[j]? = some v) (he : u.ID = v.ID) :
    i = j := by
  have h1 : (us.map (fun u => u.ID))[i]? = some u.ID := by simp [List.getElem?_map, hi]
  have h2 : (us.map (fun u => u.ID))[j]? = some v.ID := by simp [List.getElem?_map, hj]
  have hlt : i < (us.map (fun u => u.ID)).length := by
    rcases Nat.lt_or_ge i (us.map (fun u => u.ID)).length with h | h
    · exact h
    · rw [List.getElem?_eq_none h] at h1
      exact absurd h1 (by simp)
  exact List.getElem?_inj hlt hnd (h1.trans (he ▸ h2.symm))

theorem inv_init (m0 : UserMap) (us : List user) : Inv m0 us (World.init m0) where
  crit_locked := fun j h => absurd h (by simp [World.init, Pc.inCritical])
  crit_unique := fun j k h _ => absurd h (by simp [World.init, Pc.inCritical])
  read_fresh := fun j t h => absurd h (by simp [World.init])
  has_written := fun j u _ h => absurd h (by simp [World.init, Pc.wrote])
  others_kept := fun k _ => rfl

theorem inv_move (m0 : UserMap) (us : List user) (s : World) (i : Nat) (p : Pc)
    (hinv : Inv m0 us s)
    (hc : p.inCritical = (s.pc i).inCritical) (hw : p.wrote = (s.pc i).wrote)
    (hf : ∀ t, p = Pc.atWrite t → t = s.m) :
    Inv m0 us { m := s.m, locked := s.locked, pc := s.move i p } where
  crit_locked := by
    intro j hj
    by_cases e : j = i
    · subst e
      rw [show (World.mk s.m s.locked (s.move j p)).pc j = p from move_same s j p, hc] at hj
      exact hinv.crit_locked j hj
    · rw [show (World.mk s.m s.locked (s.move i p)).pc j = s.pc j from
        move_other s i j p e] at hj
      exact hinv.crit_locked j hj
  crit_unique := by
    intro j k hj hk
    have key : ∀ x, ((World.mk s.m s.locked (s.move i p)).pc x).inCritical = true →
        (s.pc x).inCritical = true := by
      intro x hx
      by_cases e : x = i
      · subst e
        rw [show (World.mk s.m s.locked (s.move x p)).pc x = p from move_same s x p, hc] at hx
        exact hx
      · rw [show (World.mk s.m s.locked (s.move i p)).pc x = s.pc x from
          move_other s i x p e] at hx
        exact hx
    exact hinv.crit_unique j k (key j hj) (key k hk)
  read_fresh := by
    intro j t hj
    by_cases e : j = i
    · subst e
      rw [show (World.mk s.m s.locked (s.move j p)).pc j = p from move_same s j p] at hj
      exact hf t hj
    · rw [show (World.mk s.m s.locked (s.move i p)).pc j = s.pc j from
        move_other s i j p e] at hj
      exact hinv.read_fresh j t hj
  has_written := by
    intro j u hu hj
    by_cases e : j = i
    · subst e
      rw [show (World.mk s.m s.locked (s.move j p)).pc j = p from move_same s j p, hw] at hj
      exact hinv.has_written j u hu hj
    · rw [show (World.mk s.m s.locked (s.move i p)).pc j = s.pc j from
        move_other s i j p e] at hj
      exact hinv.has_written j u hu hj
  others_kept := by
    intro k hk
    apply hinv.others_kept k
    intro j u hu hj
    apply hk j u hu
    by_cases e : j = i
    · subst e
      rw [show (World.mk s.m s.locked (s.move j p)).pc j = p from move_same s j p, hw]
      exact hj
    · rw [show (World.mk s.m s.locked (s.move i p)).pc j = s.pc j from move_other s i j p e]
      exact hj

theorem inv_lock (m0 : UserMap) (us : List user) (s : World) (i : Nat)
    (hinv : Inv m0 us s) (hpc : s.pc i = Pc.atLock) (hl : ¬ s.locked = true) :
    Inv m0 us { m := s.m, locked := true, pc := s.move i Pc.atRead } where
  crit_locked := fun _ _ => rfl
  crit_unique := by
    have key : ∀ x, ((World.mk s.m true (s.move i Pc.atRead)).pc x).inCritical = true →
        x = i := by
      intro x hx
      by_cases e : x = i
      · exact e
      · rw [show (World.mk s.m true (s.move i Pc.atRead)).pc x = s.pc x from
          move_other s i x _ e] at hx
        exact absurd (hinv.crit_locked x hx) hl
    intro j k hj hk
    rw [key j hj, key k hk]
  read_fresh := by
    intro j t hj
    by_cases e : j = i
    · subst e
      rw [show (World.mk s.m true (s.move j Pc.atRead)).pc j = Pc.atRead from
        move_same s j _] at hj
      exact Pc.noConfusion hj
    · rw [show (World.mk s.m true (s.move i Pc.atRead)).pc j = s.pc j from
        move_other s i j _ e] at hj
      exact hinv.read_fresh j t hj
  has_written := by
    intro j u hu hj
    by_cases e : j = i
    · subst e
      rw [show (World.mk s.m true (s.move j Pc.atRead)).pc j = Pc.atRead from
        move_same s j _] at hj
      exact absurd hj (by simp [Pc.wrote])
    · rw [show (World.mk s.m true (s.move i Pc.atRead)).pc j = s.pc j from
        move_other s i j _ e] at hj
      exact hinv.has_written j u hu hj
  others_kept := by
    intro k hk
    apply hinv.others_kept k
    intro j u hu hj
    apply hk j u hu
    by_cases e : j = i
    · subst e
      rw [hpc] at hj
      exact absurd hj (by simp [Pc.wrote])
    · rw [show (World.mk s.m true (s.move i Pc.atRead)).pc j = s.pc j from
        move_other s i j _ e]
      exact hj

theorem inv_write (m0 : UserMap) (us : List user) (hnd : (us.map (fun u => u.ID)).Nodup)
    (s : World) (i : Nat) (u : user) (seen : UserMap)
    (hinv : Inv m0 us s) (hu : us[i]? = some u) (hpc : s.pc i = Pc.atWrite seen) :
    Inv m0 us { m := seen.insert u.ID u, locked := s.locked,
                pc := s.move i Pc.atUnlock } where
  crit_locked := by
    intro j _
    exact hinv.crit_locked i (by rw [hpc]; rfl)
  crit_unique := by
    have hi : (s.pc i).inCritical = true := by rw [hpc]; rfl
    have key : ∀ x, ((World.mk (seen.insert u.ID u) s.locked
        (s.move i Pc.atUnlock)).pc x).inCritical = true → x = i := by
      intro x hx
      by_cases e : x = i
      · exact e
      · rw [show (World.mk (seen.insert u.ID u) s.locked
          (s.move i Pc.atUnlock)).pc x = s.pc x from move_other s i x _ e] at hx
        exact hinv.crit_unique x i hx hi
    intro j k hj hk
    rw [key j hj, key k hk]
  read_fresh := by
    have hi : (s.pc i).inCritical = true := by rw [hpc]; rfl
    intro j t hj
    by_cases e : j = i
    · subst e
      rw [show (World.mk (seen.insert u.ID u) s.locked
        (s.move j Pc.atUnlock)).pc j = Pc.atUnlock from move_same s j _] at hj
      exact Pc.noConfusion hj
    · rw [show (World.mk (seen.insert u.ID u) s.locked
        (s.move i Pc.atUnlock)).pc j = s.pc j from move_other s i j _ e] at hj
      exact absurd (hinv.crit_unique j i (by rw [hj]; rfl) hi) e
  has_written := by
    have hseen : seen = s.m := hinv.read_fresh i seen hpc
    intro j v hv hj
    by_cases e : j = i
    · subst e
      have huv : u = v := Option.some.inj (hu.symm.trans hv)
      subst huv
      exact AList.lookup_insert _
    · rw [show (World.mk (seen.insert u.ID u) s.locked
        (s.move i Pc.atUnlock)).pc j = s.pc j from move_other s i j _ e] at hj
      have hne : v.ID ≠ u.ID := fun c => e (ids_inj us hnd j i v u hv hu c)
      show AList.lookup v.ID (seen.insert u.ID u) = _
      rw [AList.lookup_insert_ne hne, hseen]
      exact hinv.has_written j v hv hj
  others_kept := by
    have hseen : seen = s.m := hinv.read_fresh i seen hpc
    intro k hk
    have hne : k ≠ u.ID := fun c => hk i u hu (by
      rw [show (World.mk (seen.insert u.ID u) s.locked
        (s.move i Pc.atUnlock)).pc i = Pc.atUnlock from move_same s i _]; rfl) c.symm
    show AList.lookup k (seen.insert u.ID u) = _
    rw [AList.lookup_insert_ne hne, hseen]
    apply hinv.others_kept k
    intro j v hv hj
    apply hk j v hv
    by_cases e : j = i
    · subst e
      rw [hpc] at hj
      exact absurd hj (by simp [Pc.wrote])
    · rw [show (World.mk (seen.insert u.ID u) s.locked
        (s.move i Pc.atUnlock)).pc j = s.pc j from move_other s i j _ e]
      exact hj

theorem inv_unlock (m0 : UserMap) (us : List user) (s : World) (i : Nat)
    (hinv : Inv m0 us s) (hpc : s.pc i = Pc.atUnlock) :
    Inv m0 us { m := s.m, locked := false, pc := s.move i Pc.atRespond } where
  crit_locked := by
    have hi : (s.pc i).inCritical = true := by rw [hpc]; rfl
    intro j hj
    by_cases e : j = i
    · subst e
      rw [show (World.mk s.m false (s.move j Pc.atRespond)).pc j = Pc.atRespond from
        move_same s j _] at hj
      exact absurd hj (by simp [Pc.inCritical])
    · rw [show (World.mk s.m false (s.move i Pc.atRespond)).pc j = s.pc j from
        move_other s i j _ e] at hj
      exact absurd (hinv.crit_unique j i hj hi) e
  crit_unique := by
    have key : ∀ x, ((World.mk s.m false (s.move i Pc.atRespond)).pc x).inCritical = true →
        (s.pc x).inCritical = true := by
      intro x hx
      by_cases e : x = i
      · subst e
        rw [show (World.mk s.m false (s.move x Pc.atRespond)).pc x = Pc.atRespond from
          move_same s x _] at hx
        exact absurd hx (by simp [Pc.inCritical])
      · rw [show (World.mk s.m false (s.move i Pc.atRespond)).pc x = s.pc x from
          move_other s i x _ e] at hx
        exact hx
    intro j k hj hk
    exact hinv.crit_unique j k (key j hj) (key k hk)
  read_fresh := by
    intro j t hj
    by_cases e : j = i
    · subst e
      rw [show (World.mk s.m false (s.move j Pc.atRespond)).pc j = Pc.atRespond from
        move_same s j _] at hj
      exact Pc.noConfusion hj
    · rw [show (World.mk s.m false (s.move i Pc.atRespond)).pc j = s.pc j from
        move_other s i j _ e] at hj
      exact hinv.read_fresh j t hj
  has_written := by
    intro j u hu hj
    by_cases e : j = i
    · subst e
      exact hinv.has_written j u hu (by rw [hpc]; rfl)
    · rw [show (World.mk s.m false (s.move i Pc.atRespond)).pc j = s.pc j from
        move_other s i j _ e] at hj
      exact hinv.has_written j u hu hj
  others_kept := by
    intro k hk
    apply hinv.others_kept k
    intro j u hu hj
    apply hk j u hu
    by_cases e : j = i
    · subst e
      rw [show (World.mk s.m false (s.move j Pc.atRespond)).pc j = Pc.atRespond from
        move_same s j _]
      rfl
    · rw [show (World.mk s.m false (s.move i Pc.atRespond)).pc j = s.pc j from
        move_other s i j _ e]
      exact hj

theorem inv_step (m0 : UserMap) (us : List user) (hnd : (us.map (fun u => u.ID)).Nodup)
    (s s1 : World) (i : Nat) (hinv : Inv m0 us s) (hs : step us s i = some s1) :
    Inv m0 us s1 := by
  unfold step at hs
  cases hu : us[i]? with
  | none => rw [hu] at hs; exact Option.noConfusion hs
  | some u =>
    rw [hu] at hs
    dsimp only at hs
    cases hpc : s.pc i with
    | atDecode =>
      rw [hpc] at hs
      rw [← Option.some.inj hs]
      exact inv_move m0 us s i Pc.atLock hinv (by rw [hpc]; rfl) (by rw [hpc]; rfl)
        (fun t c => Pc.noConfusion c)
    | atLock =>
      rw [hpc] at hs
      dsimp only at hs
      by_cases hl : s.locked = true
      · rw [if_pos hl] at hs; exact Option.noConfusion hs
      · rw [if_neg hl] at hs
        rw [← Option.some.inj hs]
        exact inv_lock m0 us s i hinv hpc hl
    | atRead =>
      rw [hpc] at hs
      rw [← Option.some.inj hs]
      exact inv_move m0 us s i (Pc.atWrite s.m) hinv (by rw [hpc]; rfl) (by rw [hpc]; rfl)
        (fun t c => (Pc.atWrite.inj c).symm)
    | atWrite seen =>
      rw [hpc] at hs
      rw [← Option.some.inj hs]
      exact inv_write m0 us hnd s i u seen hinv hu hpc
    | atUnlock =>
      rw [hpc] at hs
      rw [← Option.some.inj hs]
      exact inv_unlock m0 us s i hinv hpc
    | atRespond =>
      rw [hpc] at hs
      rw [← Option.some.inj hs]
      exact inv_move m0 us s i Pc.done hinv (by rw [hpc]; rfl) (by rw [hpc]; rfl)
        (fun t c => Pc.noConfusion c)
    | done => rw [hpc] at hs; exact Option.noConfusion hs

theorem inv_exec (m0 : UserMap) (us : List user) (hnd : (us.map (fun u => u.ID)).Nodup)
    (sched : List Nat) :
    ∀ s s1 : World, Inv m0 us s → exec us s sched = some s1 → Inv m0 us s1 := by
  induction sched with
  | nil =>
    intro s s1 hinv hs
    rw [← Option.some.inj hs]
    exact hinv
  | cons i sched ih =>
    intro s s1 hinv hs
    unfold exec at hs
    cases h1 : step us s i with
    | none => rw [h1] at hs; exact Option.noConfusion hs
    | some s2 =>
      rw [h1] at hs
      exact ih s2 s1 (inv_step m0 us hnd s s2 i hinv h1) hs

theorem finished_wrote (us : List user) (s : World) (hf : finished us s = true)
    (j : Nat) (u : user) (hu : us[j]? = some u) : (s.pc j).wrote = true := by
  have hlt : j < us.length := by
    rcases Nat.lt_or_ge j us.length with h | h
    · exact h
    · rw [List.getElem?_eq_none h] at hu
      exact absurd hu (by simp)
  have hd : (s.pc j).isDone = true := by
    simp only [finished, List.all_eq_true, List.mem_range] at hf
    exact hf j hlt
  cases hp : s.pc j <;> rw [hp] at hd <;> first | rfl | exact absurd hd (by simp [Pc.isDone])

theorem concurrent_lookup (m0 : UserMap) (us : List user) (sched : List Nat) (m : UserMap)
    (hnd : (us.map (fun u => u.ID)).Nodup) (hrun : concurrentCreates m0 us sched = some m) :
    (∀ u ∈ us, m.lookup u.ID = some u) ∧
    (∀ k, k ∉ us.map (fun u => u.ID) → m.lookup k = m0.lookup k) := by
  unfold concurrentCreates at hrun
  cases he : exec us (World.init m0) sched with
  | none => rw [he] at hrun; exact Option.noConfusion hrun
  | some s =>
    rw [he] at hrun
    dsimp only at hrun
    by_cases hf : finished us s = true
    · rw [if_pos hf] at hrun
      have hm : s.m = m := Option.some.inj hrun
      have hinv := inv_exec m0 us hnd sched (World.init m0) s (inv_init m0 us) he
      rw [← hm]
      constructor
      · intro u hu
        obtain ⟨j, hj⟩ := List.getElem?_of_mem hu
        exact hinv.has_written j u hj (finished_wrote us s hf j u hj)
      · intro k hk
        apply hinv.others_kept k
        intro j u hu _ c
        apply hk
        rw [← c]
        exact List.mem_map.2 ⟨u, List.getElem?_mem hu, rfl⟩
    · rw [if_neg hf] at hrun
      exact Option.noConfusion hrun

theorem concurrent_entries (m0 : UserMap) (us : List user) (m : UserMap)
    (hnd : (us.map (fun u => u.ID)).Nodup)
    (h1 : ∀ u ∈ us, m.lookup u.ID = some u)
    (h2 : ∀ k, k ∉ us.map (fun u => u.ID) → m.lookup k = m0.lookup k) :
    m.entries.Perm
      (us.map (fun u => (⟨u.ID, u⟩ : Sigma (fun _ : String => user)))
        ++ m0.entries.filter (fun kv => decide (kv.1 ∉ us.map (fun u => u.ID)))) := by
  have hinj : ∀ u ∈ us, ∀ v ∈ us, u.ID = v.ID → u = v := by
    intro u hu v hv he
    exact List.inj_on_of_nodup_map hnd hu hv he
  apply (List.perm_ext_iff_of_nodup m.nodupKeys.nodup ?_).2
  · rintro ⟨k, v⟩
    rw [← AList.mem_lookup_iff, List.mem_append, List.mem_map, List.mem_filter]
    by_cases hk : k ∈ us.map (fun u => u.ID)
    · obtain ⟨u, hu, rfl⟩ := List.mem_map.1 hk
      rw [h1 u hu]
      constructor
      · intro hv
        have hv1 : u = v := Option.some.inj hv
        exact Or.inl ⟨u, hu, by rw [hv1]⟩
      · rintro (⟨w, hw, hwe⟩ | ⟨_, hn⟩)
        · have hid : w.ID = u.ID := (Sigma.mk.inj_iff.1 hwe).1
          have hwu : w = u := hinj w hw u hu hid
          subst hwu
          have hv1 : w = v := eq_of_heq (Sigma.mk.inj_iff.1 hwe).2
          rw [hv1]
          rfl
        · exact absurd hk (by simpa using hn)
    · rw [h2 k hk]
      constructor
      · intro hv
        exact Or.inr ⟨AList.mem_lookup_iff.1 hv, by simpa using hk⟩
      · rintro (⟨w, hw, hwe⟩ | ⟨hm, _⟩)
        · have hid : w.ID = k := (Sigma.mk.inj_iff.1 hwe).1
          exact absurd (List.mem_map.2 ⟨w, hw, hid⟩) hk
        · exact AList.mem_lookup_iff.2 hm
  · rw [List.nodup_append]
    refine ⟨?_, List.Nodup.filter _ m0.nodupKeys.nodup, ?_⟩
    · have hn : (List.map (fun s : Sigma (fun _ : String => user) => s.1)
          (us.map (fun u => (⟨u.ID, u⟩ : Sigma (fun _ : String => user))))).Nodup := by
        rw [List.map_map]
        exact hnd
      exact List.Nodup.of_map _ hn
    · intro x hx hx2
      obtain ⟨u, hu, rfl⟩ := List.mem_map.1 hx
      have hf := (List.mem_filter.1 hx2).2
      simp only [decide_eq_true_eq] at hf
      exact hf (List.mem_map.2 ⟨u, hu, rfl⟩)

/-- C14: when Create requests for users with pairwise distinct IDs run concurrently
and have all returned, then, whatever the schedule, the map holds each of the users
under its ID and holds what it held before under every other key; so the slice
`List` then encodes is, up to order, those users together with the users kept from
before. -/
theorem C14_concurrent_creates (m0 : UserMap) (mp : PostMap) (us : List user)
    (sched : List Nat) (m : UserMap)
    (hnd : (us.map (fun u => u.ID)).Nodup)
    (hrun : concurrentCreates m0 us sched = some m) :
    (∀ u ∈ us, m.lookup u.ID = some u) ∧
    (∀ k, k ∉ us.map (fun u => u.ID) → m.lookup k = m0.lookup k) ∧
    (userHandler.List.users { store := { m := m, m_post := mp } }).Perm
      (us ++ keptRecords m0 us) ∧
    (userHandler.List.users { store := { m := m, m_post := mp } }).length
      = us.length + (keptRecords m0 us).length := by
  obtain ⟨h1, h2⟩ := concurrent_lookup m0 us sched m hnd hrun
  have hp : (userHandler.List.users { store := { m := m, m_post := mp } }).Perm
      (us ++ keptRecords m0 us) := by
    rw [users_eq_map]
    have he := (concurrent_entries m0 us m hnd h1 h2).map
      (fun kv : Sigma (fun _ : String => user) => kv.2)
    rw [List.map_append, List.map_map] at he
    have hid : ((fun kv : Sigma (fun _ : String => user) => kv.2) ∘
        fun u => (⟨u.ID, u⟩ : Sigma (fun _ : String => user))) = id := rfl
    rw [hid, List.map_id] at he
    exact he
  refine ⟨h1, h2, hp, ?_⟩
  rw [hp.length_eq, List.length_append]

/-- C14, at a concrete run: the users 7 and 8 are created concurrently in the store
holding user 1, under a schedule in which the first goroutine waits for the mutex;
the list then holds the three users. -/
theorem C14_concurrent_creates_witness :
    concurrentCreates userH.store.m [seven, eight] interleaved = some bothCreated ∧
    (userHandler.List.users { store := { m := bothCreated, m_post := ∅ } }).length = 3 :=
  ⟨by rfl,
    (C14_concurrent_creates userH.store.m ∅ [seven, eight] interleaved bothCreated
      (by decide) (by rfl)).2.2.2⟩

/-! ## C8: the two collections are independent -/

theorem list_congr (h1 h2 : userHandler) (w : ResponseWriter) (r : Request)
    (hm : h1.store.m = h2.store.m) : (h1.List w r).2 = (h2.List w r).2 := by
  unfold userHandler.List userHandler.List_with userHandler.List.users
  dsimp only
  rw [hm]
  cases json.Marshal.ofUsers
    (List.foldl (fun users kv => users ++ [kv.2]) [] h2.store.m.entries) <;> rfl

theorem get_congr (h1 h2 : userHandler) (w : ResponseWriter) (r : Request)
    (hm : h1.store.m = h2.store.m) : (h1.Get w r).2 = (h2.Get w r).2 := by
  unfold userHandler.Get userHandler.Get_with
  dsimp only
  rw [hm]
  by_cases hl : (getUserRe.FindStringSubmatch r.URL.Path).length < 2
  · rw [if_pos hl, if_pos hl]
  · rw [if_neg hl, if_neg hl]
    cases h2.store.m.lookup ((getUserRe.FindStringSubmatch r.URL.Path).getD 1 "") with
    | none => rfl
    | some u => cases json.Marshal.ofUser u <;> rfl

theorem listPost_congr (E : Env) (h1 h2 : userHandler) (w : ResponseWriter) (r : Request)
    (hm : h1.store.m_post = h2.store.m_post) :
    (h1.ListPost E w r).2 = (h2.ListPost E w r).2 := by
  unfold userHandler.ListPost userHandler.ListPost_with userHandler.ListPost.posts
  dsimp only
  rw [hm]
  cases json.Marshal.ofPosts
    (List.foldl (fun _posts kv => E.users ++ [kv.2]) [] h2.store.m_post.entries) <;> rfl

theorem getPost_congr (h1 h2 : userHandler) (w : ResponseWriter) (r : Request)
    (hm : h1.store.m_post = h2.store.m_post) : (h1.GetPost w r).2 = (h2.GetPost w r).2 := by
  unfold userHandler.GetPost userHandler.GetPost_with
  dsimp only
  rw [hm]
  by_cases hl : (getUserRe.FindStringSubmatch r.URL.Path).length < 2
  · rw [if_pos hl, if_pos hl]
  · rw [if_neg hl, if_neg hl]
    cases h2.store.m_post.lookup ((getUserRe.FindStringSubmatch r.URL.Path).getD 1 "") with
    | none => rfl
    | some u => cases json.Marshal.ofPost u <;> rfl

theorem serve_users_congr (E : Env) (h1 h2 : userHandler) (x : Request)
    (hm : h1.store.m = h2.store.m) (hx : x.Method = MethodGet)
    (hp : listUserRe.MatchString x.URL.Path = true ∨ getUserRe.MatchString x.URL.Path = true) :
    (h1.ServeHTTP E [] x).2 = (h2.ServeHTTP E [] x).2 := by
  rw [serve_unfold, serve_unfold]
  dsimp only
  by_cases c1 : listUserRe.MatchString x.URL.Path = true
  · rw [if_pos ⟨hx, c1⟩, if_pos ⟨hx, c1⟩]
    exact list_congr h1 h2 _ x hm
  · have c2 : getUserRe.MatchString x.URL.Path = true := hp.resolve_left c1
    rw [if_neg (fun c => c1 c.2), if_pos ⟨hx, c2⟩, if_neg (fun c => c1 c.2), if_pos ⟨hx, c2⟩]
    exact get_congr h1 h2 _ x hm

theorem serve_posts_congr (E : Env) (h1 h2 : userHandler) (y : Request)
    (hm : h1.store.m_post = h2.store.m_post) (hy : y.Method = MethodGet)
    (hp : listPostRe.MatchString y.URL.Path = true ∨ getPostRe.MatchString y.URL.Path = true) :
    (h1.ServeHTTP E [] y).2 = (h2.ServeHTTP E [] y).2 := by
  obtain ⟨_, e2, e3, e4, e5, _⟩ := patterns_exclusive y.URL.Path
  have n1 : ¬ (listUserRe.MatchString y.URL.Path = true) := by
    intro c
    rcases hp with hp | hp
    · exact e2 ⟨c, hp⟩
    · exact e3 ⟨c, hp⟩
  have n2 : ¬ (getUserRe.MatchString y.URL.Path = true) := by
    intro c
    rcases hp with hp | hp
    · exact e4 ⟨c, hp⟩
    · exact e5 ⟨c, hp⟩
  have n3 : ¬ (y.Method = MethodPost) := by rw [hy]; decide
  have k1 : ¬ (y.Method = MethodGet ∧ listUserRe.MatchString y.URL.Path = true) :=
    fun c => n1 c.2
  have k2 : ¬ (y.Method = MethodGet ∧ getUserRe.MatchString y.URL.Path = true) :=
    fun c => n2 c.2
  have k3 : ¬ (y.Method = MethodPost ∧ createUserRe.MatchString y.URL.Path = true) :=
    fun c => n3 c.1
  rw [serve_unfold, serve_unfold]
  dsimp only
  rw [if_neg k1, if_neg k2, if_neg k3, if_neg k1, if_neg k2, if_neg k3]
  by_cases c4 : listPostRe.MatchString y.URL.Path = true
  · have k4 : y.Method = MethodGet ∧ listPostRe.MatchString y.URL.Path = true := ⟨hy, c4⟩
    rw [if_pos k4, if_pos k4]
    exact listPost_congr E h1 h2 _ y hm
  · have c5 : getPostRe.MatchString y.URL.Path = true := hp.resolve_left c4
    have k4 : ¬ (y.Method = MethodGet ∧ listPostRe.MatchString y.URL.Path = true) :=
      fun c => c4 c.2
    have k5 : y.Method = MethodGet ∧ getPostRe.MatchString y.URL.Path = true := ⟨hy, c5⟩
    rw [if_neg k4, if_pos k5, if_neg k4, if_pos k5]
    exact getPost_congr h1 h2 _ y hm

/-- C8: a Create on `/posts` whose body decodes answers 200 and leaves the users map
as it was, so that every GET on a path `/users[/]*` or `/users/<digits>` is answered
after it as it was before; and a Create on `/users` whose body decodes answers 200
and leaves the posts map as it was, so that every GET on a path `/posts[/]*` or
`/posts/<digits>` is answered after it as it was before. Nothing is assumed on the
IDs of the two records, which may be equal. -/
theorem C8_independent_collections (E : Env) (h : userHandler) (q r x y : Request)
    (p : post) (u : user)
    (hq : isCreatePost q) (hp : E.Decode_post q.Body = Except.ok p)
    (hr : isCreate r) (hu : E.Decode_user r.Body = Except.ok u)
    (hx : x.Method = MethodGet)
    (hxp : listUserRe.MatchString x.URL.Path = true ∨
      getUserRe.MatchString x.URL.Path = true)
    (hy : y.Method = MethodGet)
    (hyp : listPostRe.MatchString y.URL.Path = true ∨
      getPostRe.MatchString y.URL.Path = true) :
    ((h.ServeHTTP E [] q).2.status = some StatusOK ∧
      (h.ServeHTTP E [] q).1.store.m_post.lookup p.ID = some p ∧
      (h.ServeHTTP E [] q).1.store.m = h.store.m ∧
      ((h.ServeHTTP E [] q).1.ServeHTTP E [] x).2 = (h.ServeHTTP E [] x).2) ∧
    ((h.ServeHTTP E [] r).2.status = some StatusOK ∧
      (h.ServeHTTP E [] r).1.store.m.lookup u.ID = some u ∧
      (h.ServeHTTP E [] r).1.store.m_post = h.store.m_post ∧
      ((h.ServeHTTP E [] r).1.ServeHTTP E [] y).2 = (h.ServeHTTP E [] y).2) := by
  refine ⟨⟨?_, ?_, ?_, ?_⟩, ⟨?_, ?_, ?_, ?_⟩⟩
  · rw [serve_createPost E h [] q hq, createPost_ok E h _ q p hp]; rfl
  · rw [serve_createPost E h [] q hq, createPost_ok E h _ q p hp]
    exact AList.lookup_insert _
  · rw [serve_createPost E h [] q hq, createPost_ok E h _ q p hp]
  · apply serve_users_congr E _ h x _ hx hxp
    rw [serve_createPost E h [] q hq, createPost_ok E h _ q p hp]
  · rw [serve_create E h [] r hr, create_ok E h _ r u hu]; rfl
  · rw [serve_create E h [] r hr, create_ok E h _ r u hu]
    exact AList.lookup_insert _
  · rw [serve_create E h [] r hr, create_ok E h _ r u hu]
  · apply serve_posts_congr E _ h y _ hy hyp
    rw [serve_create E h [] r hr, create_ok E h _ r u hu]

/-- C8, at concrete requests on the store holding user 1 under ID 1: the post with
ID 1 is created, and GET `/users/1` still returns bob; the user with ID 1 is created
again in the store holding post 1, and GET `/posts` still returns the array of that
post. -/
theorem C8_independent_collections_witness :
    ((userH.ServeHTTP flatEnv [] (POST "/posts" selfieBody)).2.status = some StatusOK ∧
      (userH.ServeHTTP flatEnv [] (POST "/posts" selfieBody)).1.store.m_post.lookup "1"
        = some selfie ∧
      ((userH.ServeHTTP flatEnv [] (POST "/posts" selfieBody)).1.ServeHTTP flatEnv []
        (GET "/users/1")).2 = (userH.ServeHTTP flatEnv [] (GET "/users/1")).2 ∧
      ((userH.ServeHTTP flatEnv [] (POST "/posts" selfieBody)).1.ServeHTTP flatEnv []
        (GET "/users/1")).2.body = bobBody) ∧
    ((postH.ServeHTTP flatEnv [] (POST "/users" bobBody)).2.status = some StatusOK ∧
      ((postH.ServeHTTP flatEnv [] (POST "/users" bobBody)).1.ServeHTTP flatEnv []
        (GET "/posts")).2 = (postH.ServeHTTP flatEnv [] (GET "/posts")).2 ∧
      ((postH.ServeHTTP flatEnv [] (POST "/users" bobBody)).1.ServeHTTP flatEnv []
        (GET "/posts")).2.body = "[" ++ selfieBody ++ "]") :=
  have k1 := C8_independent_collections flatEnv userH (POST "/posts" selfieBody)
    (POST "/users" bobBody) (GET "/users/1") (GET "/posts") selfie bob
    ⟨rfl, rfl⟩ rfl ⟨rfl, rfl⟩ rfl rfl (Or.inr rfl) rfl (Or.inl rfl)
  have k2 := C8_independent_collections flatEnv postH (POST "/posts" selfieBody)
    (POST "/users" bobBody) (GET "/users/1") (GET "/posts") selfie bob
    ⟨rfl, rfl⟩ rfl ⟨rfl, rfl⟩ rfl rfl (Or.inr rfl) rfl (Or.inl rfl)
  ⟨⟨k1.1.1, k1.1.2.1, k1.1.2.2.2, by rfl⟩, ⟨k2.2.1, k2.2.2.2.2, by rfl⟩⟩

end InstaAPI
